import Mathlib

/-!
# Inventory control web application: verification development

Shallow embedding of the state-changing and computing parts of the React
pages (`SalesPage`, `AddProductPage`, `ProductDetailPage`, `SalesHistoryPage`,
`ReportsPage`, `AnalyticsPage`) and of `InventoryContext.registerSale`.

Modelling conventions

* a finite JavaScript number is an exact rational (`ℚ`); quantities that the
  code only ever produces as integers are `Int`; the rounding of IEEE doubles
  is not modelled;
* a field that may be missing (`undefined` / `null`) is an `Option`;
* React state is passed explicitly: a handler is a function from the state it
  closes over to the state it sets;
* the Firestore collections are finite maps from document id to document.
-/

namespace InventoryControl

/-! ## Data model -/

/-- Product document as the pages receive it from `InventoryContext`. -/
structure Product where
  id : String
  name : String
  sku : Option String
  description : Option String
  category : Option String
  price : ℚ
  cost : ℚ
  quantity : Int
  deriving DecidableEq

/-- Cart line of `SalesPage` (the object literal built in `addToCart`). -/
structure CartItem where
  productId : String
  productName : String
  price : ℚ
  quantity : Int
  maxQuantity : Int
  deriving DecidableEq

/-- Sale line of the payload built in `handleCheckout`. -/
structure SaleItem where
  productId : String
  productName : String
  quantity : Int
  price : ℚ
  subtotal : ℚ
  deriving DecidableEq

/-- The `saleData` object literal of `handleCheckout`. -/
structure SaleData where
  items : List SaleItem
  total : ℚ
  paymentMethod : String
  notes : Option String
  createdAt : Int
  deriving DecidableEq

/-! ## JavaScript string helpers -/

/-- White space and line terminators removed by `String.prototype.trim`. -/
def isJSWhitespace (c : Char) : Bool :=
  c.val = 0x09 || c.val = 0x0A || c.val = 0x0B || c.val = 0x0C || c.val = 0x0D ||
  c.val = 0x20 || c.val = 0xA0 || c.val = 0x1680 ||
  (0x2000 ≤ c.val && c.val ≤ 0x200A) ||
  c.val = 0x2028 || c.val = 0x2029 || c.val = 0x202F || c.val = 0x205F ||
  c.val = 0x3000 || c.val = 0xFEFF

/-- Drop leading white space (`trimStart` on the list of characters). -/
def trimStartChars (cs : List Char) : List Char :=
  cs.dropWhile isJSWhitespace

/-- JavaScript `s.trim()`. -/
def jsTrim (s : String) : String :=
  String.mk (trimStartChars (trimStartChars s.data).reverse).reverse

/-- JavaScript truthiness of a string: only the empty string is falsy. -/
def strTruthy (s : String) : Bool :=
  !s.data.isEmpty

/-- The expression `s.trim() || null`. -/
def trimOrNull (s : String) : Option String :=
  if strTruthy (jsTrim s) then some (jsTrim s) else none

/-! ## SalesPage -/

/-- State of `SalesPage` that the handlers read and set. -/
structure SalesPageState where
  cartItems : List CartItem
  notes : String
  paymentMethod : String
  deriving DecidableEq

/-- Model of `Array.prototype.findIndex`, with `none` for the result `-1`. -/
def findIndex {α : Type} (p : α → Bool) : List α → Option Nat
  | [] => none
  | x :: xs => if p x then some 0 else (findIndex p xs).map (· + 1)

/-- Model of `const total = cartItems.reduce((sum, item) => sum + item.price * item.quantity, 0)`. -/
def total (cartItems : List CartItem) : ℚ :=
  cartItems.foldl (fun sum item => sum + item.price * item.quantity) 0

/-- Model of `addToCart(product)`: the cart that is set, or the unchanged cart on the
early return. -/
def addToCart (cartItems : List CartItem) (product : Product) : List CartItem :=
  match findIndex (fun item => item.productId == product.id) cartItems with
  | some existingItemIndex =>
    match cartItems.get? existingItemIndex with
    | some item =>
      let currentQuantity := item.quantity
      if currentQuantity ≥ product.quantity then cartItems
      else cartItems.set existingItemIndex { item with quantity := item.quantity + 1 }
    | none => cartItems
  | none =>
    cartItems ++ [{ productId := product.id
                    productName := product.name
                    price := product.price
                    quantity := 1
                    maxQuantity := product.quantity }]

/-- Model of `removeFromCart(index)`: `splice(index, 1)` on a copy. -/
def removeFromCart (cartItems : List CartItem) (index : Nat) : List CartItem :=
  cartItems.eraseIdx index

/-- Model of `updateItemQuantity(index, newQuantity)`: `none` when `cartItems[index]`
is undefined (reading `maxQuantity` throws and no state is set). -/
def updateItemQuantity (cartItems : List CartItem) (index : Nat) (newQuantity : Int) :
    Option (List CartItem) :=
  match cartItems.get? index with
  | none => none
  | some item =>
    let maxQuantity := item.maxQuantity
    if newQuantity > maxQuantity then some cartItems
    else if newQuantity ≤ 0 then some (removeFromCart cartItems index)
    else some (cartItems.set index { item with quantity := newQuantity })

/-- The `saleData` object built by `handleCheckout`; `now` is `new Date()`. -/
def buildSaleData (st : SalesPageState) (now : Int) : SaleData :=
  { items := st.cartItems.map fun item =>
      { productId := item.productId
        productName := item.productName
        quantity := item.quantity
        price := item.price
        subtotal := item.price * item.quantity }
    total := total st.cartItems
    paymentMethod := st.paymentMethod
    notes := trimOrNull st.notes
    createdAt := now }

/-- The payload `handleCheckout` passes to `registerSale`: none for the empty
cart (early return after the alert). -/
def checkoutPayload (st : SalesPageState) (now : Int) : Option SaleData :=
  if st.cartItems.length = 0 then none else some (buildSaleData st now)

/-- One user action on the cart. -/
inductive CartAction where
  | add (product : Product)
  | remove (index : Nat)
  | update (index : Nat) (newQuantity : Int)

/-- Cart after one action; an `updateItemQuantity` that throws sets no state. -/
def applyCartAction (cartItems : List CartItem) : CartAction → List CartItem
  | .add product => addToCart cartItems product
  | .remove index => removeFromCart cartItems index
  | .update index newQuantity => (updateItemQuantity cartItems index newQuantity).getD cartItems

/-- Cart after a sequence of actions, starting from the initial state `[]`. -/
def runCart (actions : List CartAction) : List CartItem :=
  actions.foldl applyCartAction []

/-- Example state of SalesPage: one line of two units in the cart. -/
def demoSalesPageState : SalesPageState :=
  { cartItems := [{ productId := "p1", productName := "Pan", price := 3 / 2,
                    quantity := 2, maxQuantity := 5 }]
    notes := " para llevar "
    paymentMethod := "Tarjeta" }

/-- Every line holds at least one unit, at most its `maxQuantity`, and its
`maxQuantity` is the stock of its product. -/
def CartInv (stock : String → Int) (cartItems : List CartItem) : Prop :=
  ∀ item ∈ cartItems,
    1 ≤ item.quantity ∧ item.quantity ≤ item.maxQuantity ∧
      item.maxQuantity = stock item.productId

/-- Product used in the cart examples: three units in stock. -/
def demoProduct : Product :=
  { id := "p1", name := "Pan", sku := none, description := none, category := none,
    price := 3 / 2, cost := 1, quantity := 3 }

/-- Example sequence of cart actions. -/
def demoCartActions : List CartAction :=
  [.add demoProduct, .add demoProduct, .update 0 3, .add demoProduct, .update 0 1, .remove 4]

/-! ## InventoryContext.registerSale -/

/-- Data of a document of the products collection. -/
structure ProductDoc where
  name : String
  sku : Option String
  description : Option String
  category : Option String
  price : ℚ
  cost : ℚ
  quantity : Int
  imageUrl : Option String
  createdAt : Int
  updatedAt : Int
  createdBy : String
  deriving DecidableEq

/-- Data of a document of the sales collection (`newSale`). -/
structure SaleDoc where
  items : List SaleItem
  total : ℚ
  paymentMethod : String
  notes : Option String
  createdAt : Int
  createdBy : String
  deriving DecidableEq

/-- Data of a document of the inventory movements collection. -/
structure InventoryMovement where
  productId : String
  quantity : Int
  type : String
  referenceId : String
  note : String
  createdAt : Int
  createdBy : String
  deriving DecidableEq

/-- The three Firestore collections `registerSale` reads and writes. -/
structure Firestore where
  products : String → Option ProductDoc
  sales : List (String × SaleDoc)
  movements : List InventoryMovement

/-- Body of the loop `for (const item of saleData.items)`: `getDoc`, then if the
product exists `updateDoc` of its quantity and `addDoc` of the movement.
`now` is the server timestamp, `saleId` the id of the sale just added. -/
def registerSaleItem (uid saleId : String) (now : Int) (db : Firestore) (item : SaleItem) :
    Firestore :=
  match db.products item.productId with
  | some productDoc =>
    let currentQuantity := productDoc.quantity
    { db with
      products := fun id =>
        if id = item.productId then
          some { productDoc with quantity := currentQuantity - item.quantity, updatedAt := now }
        else db.products id
      movements := db.movements ++
        [{ productId := item.productId
           quantity := -item.quantity
           type := "sale"
           referenceId := saleId
           note := "Venta #" ++ saleId
           createdAt := now
           createdBy := uid }] }
  | none => db

/-- Model of `registerSale(saleData)` when no Firestore call fails: the sale is added
under the fresh id `saleId`, then the stock of every sold product is updated. -/
def registerSale (db : Firestore) (uid saleId : String) (now : Int) (saleData : SaleData) :
    Firestore :=
  let newSale : SaleDoc :=
    { items := saleData.items
      total := saleData.total
      paymentMethod := saleData.paymentMethod
      notes := saleData.notes
      createdAt := now
      createdBy := uid }
  saleData.items.foldl (registerSaleItem uid saleId now)
    { db with sales := db.sales ++ [(saleId, newSale)] }

/-- Sum of the quantities of the items that reference product `id`. -/
def soldQuantity (items : List SaleItem) (id : String) : Int :=
  ((items.filter fun item => item.productId == id).map (·.quantity)).sum

/-- Every product of the catalog has a quantity >= 0. -/
def StockNonneg (db : Firestore) : Prop :=
  ∀ id doc, db.products id = some doc → 0 ≤ doc.quantity

/-- Example product document with the given stock. -/
def demoProductDoc (quantity : Int) : ProductDoc :=
  { name := "Pan", sku := none, description := none, category := some "Panadería",
    price := 3 / 2, cost := 1, quantity := quantity, imageUrl := none,
    createdAt := 0, updatedAt := 0, createdBy := "u1" }

/-- Example database: product p1 with one unit, product p2 with four. -/
def demoDb : Firestore :=
  { products := fun id =>
      if id = "p1" then some (demoProductDoc 1)
      else if id = "p2" then some (demoProductDoc 4) else none
    sales := []
    movements := [] }

/-- Sale line of `quantity` units of product `productId` at price 3/2. -/
def demoSaleItem (productId : String) (quantity : Int) : SaleItem :=
  { productId := productId, productName := "Pan", quantity := quantity, price := 3 / 2,
    subtotal := 3 / 2 * quantity }

/-- Sale with the given lines. -/
def demoSale (items : List SaleItem) : SaleData :=
  { items := items, total := 0, paymentMethod := "Efectivo", notes := none, createdAt := 0 }

/-! ## JavaScript numbers and their parsing -/

/-- A JavaScript number: NaN, a finite value (exact), or an infinity. -/
inductive JSNumber where
  | nan
  | num (value : ℚ)
  | posInf
  | negInf
  deriving DecidableEq

/-- Model of `isNaN(x)` for a number x. -/
def JSNumber.isNaN : JSNumber → Bool
  | .nan => true
  | _ => false

/-- Comparison `x <= y`: false as soon as one side is NaN. -/
def JSNumber.le : JSNumber → JSNumber → Bool
  | .nan, _ => false
  | _, .nan => false
  | .num a, .num b => decide (a ≤ b)
  | .negInf, _ => true
  | _, .posInf => true
  | .posInf, _ => false
  | .num _, .negInf => false

/-- Comparison `x < y`: false as soon as one side is NaN. -/
def JSNumber.lt : JSNumber → JSNumber → Bool
  | .nan, _ => false
  | _, .nan => false
  | .num a, .num b => decide (a < b)
  | .posInf, _ => false
  | _, .negInf => false
  | .negInf, _ => true
  | .num _, .posInf => true

/-- Truthiness of a number: NaN and 0 are falsy. -/
def JSNumber.truthy : JSNumber → Bool
  | .nan => false
  | .num q => decide (q ≠ 0)
  | _ => true

/-- The expression `x || 0`. -/
def JSNumber.orZero (x : JSNumber) : JSNumber :=
  if x.truthy then x else .num 0

/-- Value of a run of decimal digits. -/
def digitsValue (ds : List Char) : Nat :=
  ds.foldl (fun acc c => acc * 10 + (c.toNat - 48)) 0

/-- Value of a hexadecimal digit, if the character is one. -/
def hexDigit? (c : Char) : Option Nat :=
  if c.isDigit then some (c.toNat - 48)
  else if 'a'.toNat ≤ c.toNat ∧ c.toNat ≤ 'f'.toNat then some (c.toNat - 87)
  else if 'A'.toNat ≤ c.toNat ∧ c.toNat ≤ 'F'.toNat then some (c.toNat - 55)
  else none

/-- Exponent part `e` / `E`, optional sign, at least one digit; 0 when the
characters do not start with a complete exponent part. -/
def exponentValue : List Char → Int
  | c :: rest =>
    if c = 'e' ∨ c = 'E' then
      match rest with
      | '+' :: ds =>
        if (ds.takeWhile Char.isDigit).isEmpty then 0
        else (digitsValue (ds.takeWhile Char.isDigit) : Int)
      | '-' :: ds =>
        if (ds.takeWhile Char.isDigit).isEmpty then 0
        else -(digitsValue (ds.takeWhile Char.isDigit) : Int)
      | ds =>
        if (ds.takeWhile Char.isDigit).isEmpty then 0
        else (digitsValue (ds.takeWhile Char.isDigit) : Int)
    else 0
  | [] => 0

/-- Least value that rounds to Infinity as a double: 2^1024 - 2^970, half an
ulp above the largest finite double. -/
def doubleOverflowBound : ℚ :=
  ((179769313486231580793728971405303415079934132710037826936173778980444968292764750946649017977587207096330286416692887910946555547851940402630657488671505820681908902000708383676273854845817711531764475730270069855571366959622842914819860834936475292719074168444365510704342711559699508093042880177904174497792 : Nat) : ℚ)

/-- Greatest value that rounds to 0 as a double: 2^-1075, half of the smallest
subnormal double. -/
def doubleUnderflowBound : ℚ :=
  1 / ((404804506614621236704990693437834614099113299528284236713802716054860679135990693783920767402874248990374155728633623822779617474771586953734026799881477019843034848553132722728933815484186432682479535356945490137124014966849385397236206711298319112681620113024717539104666829230461005064372655017292012526615415482186989568 : Nat) : ℚ)

/-- The number that a non-negative mathematical value becomes as a double, as
far as its range goes: Infinity from the overflow bound on, 0 up to the
underflow bound, and otherwise the value itself (the rounding of the mantissa
is not modelled). -/
def toDoubleRange (value : ℚ) : JSNumber :=
  if doubleOverflowBound ≤ value then .posInf
  else if value ≤ doubleUnderflowBound then .num 0
  else .num value

/-- Value of the longest prefix that is an unsigned decimal literal
(`Infinity`, `digits[.digits][exponent]` or `.digits[exponent]`), NaN when no
prefix is one. -/
def parseUnsignedDecimal (cs : List Char) : JSNumber :=
  if "Infinity".data.isPrefixOf cs then .posInf
  else
    let intDigits := cs.takeWhile Char.isDigit
    let afterInt := cs.dropWhile Char.isDigit
    let fracDigits :=
      match afterInt with
      | '.' :: rest => rest.takeWhile Char.isDigit
      | _ => []
    let afterFrac :=
      match afterInt with
      | '.' :: rest => rest.dropWhile Char.isDigit
      | _ => afterInt
    if intDigits.isEmpty && fracDigits.isEmpty then .nan
    else
      toDoubleRange (((digitsValue intDigits : ℚ) +
          (digitsValue fracDigits : ℚ) / (10 : ℚ) ^ fracDigits.length) *
        (10 : ℚ) ^ exponentValue afterFrac)

/-- Negation of a JavaScript number. -/
def JSNumber.neg : JSNumber → JSNumber
  | .nan => .nan
  | .num q => .num (-q)
  | .posInf => .negInf
  | .negInf => .posInf

/-- JavaScript `parseFloat(s)` on a string: leading white space is skipped, an
optional sign is read, then the longest decimal literal; what follows is
ignored. A literal beyond the range of doubles gives an infinity and one
below the smallest subnormal gives 0; within the range the value of the
literal is kept exactly (its mantissa is not rounded). -/
def parseFloat (s : String) : JSNumber :=
  match trimStartChars s.data with
  | '-' :: rest => (parseUnsignedDecimal rest).neg
  | '+' :: rest => parseUnsignedDecimal rest
  | cs => parseUnsignedDecimal cs

/-- Digits of `parseInt` after the sign: radix 16 after a `0x` / `0X` prefix,
radix 10 otherwise; none (NaN) when there is no digit. -/
def parseUnsignedInt : List Char → Option Nat
  | '0' :: x :: rest =>
    if x = 'x' ∨ x = 'X' then
      let ds := (rest.map hexDigit?).takeWhile Option.isSome
      if ds.isEmpty then none
      else some (ds.foldl (fun acc d => acc * 16 + d.getD 0) 0)
    else some (digitsValue (('0' :: x :: rest).takeWhile Char.isDigit))
  | cs =>
    if (cs.takeWhile Char.isDigit).isEmpty then none
    else some (digitsValue (cs.takeWhile Char.isDigit))

/-- JavaScript `parseInt(s)` without radix on a string; `none` is NaN. The
value of the digits is exact: it is not rounded to a double. -/
def parseInt (s : String) : Option Int :=
  match trimStartChars s.data with
  | '-' :: rest => (parseUnsignedInt rest).map fun n => -(n : Int)
  | '+' :: rest => (parseUnsignedInt rest).map fun n => (n : Int)
  | cs => (parseUnsignedInt cs).map fun n => (n : Int)

/-! ## AddProductPage -/

/-- Form state of `AddProductPage`. -/
structure AddProductForm where
  name : String
  sku : String
  description : String
  category : String
  price : String
  cost : String
  quantity : String
  image : Option String
  deriving DecidableEq

/-- The `productData` object of `handleSaveProduct`. -/
structure ProductData where
  name : String
  sku : Option String
  description : Option String
  category : String
  price : JSNumber
  cost : JSNumber
  quantity : Int
  deriving DecidableEq

/-- The expression `category.trim() || 'Sin categoría'`. -/
def categoryOrDefault (category : String) : String :=
  if strTruthy (jsTrim category) then jsTrim category else "Sin categoría"

/-- Model of `handleSaveProduct`: the arguments of the call `addProduct(productData,
imageToUpload)`, or none when a validation returns before the call. -/
def handleSaveProduct (form : AddProductForm) : Option (ProductData × Option String) :=
  if !strTruthy (jsTrim form.name) then none
  else
    let priceNumber := parseFloat form.price
    let costNumber := parseFloat form.cost
    let quantityNumber := parseInt form.quantity
    if priceNumber.isNaN || priceNumber.le (.num 0) then none
    else if costNumber.isNaN || costNumber.le (.num 0) then none
    else
      match quantityNumber with
      | none => none
      | some quantityNumber =>
        if quantityNumber < 0 then none
        else
          some ({ name := form.name
                  sku := trimOrNull form.sku
                  description := trimOrNull form.description
                  category := categoryOrDefault form.category
                  price := priceNumber
                  cost := costNumber
                  quantity := quantityNumber },
                match form.image with
                | some image => if strTruthy image then some image else none
                | none => none)

/-! ## ProductDetailPage -/

/-- The `product` form state of `ProductDetailPage`. -/
structure ProductForm where
  name : String
  sku : String
  description : String
  category : String
  price : String
  cost : String
  quantity : String
  imageUrl : String
  deriving DecidableEq

/-- The `updatedProduct` object of `handleSave`. -/
structure UpdatedProduct where
  name : String
  sku : String
  description : String
  category : String
  price : JSNumber
  cost : JSNumber
  quantity : Int
  imageUrl : String
  deriving DecidableEq

/-- The expression `parseInt(s) || 0`. -/
def parseIntOrZero (s : String) : Int :=
  match parseInt s with
  | some n => n
  | none => 0

/-- Model of `handleSave`: the product passed to `updateProduct`, or none when the name
is empty and the handler returns before the call. -/
def handleSave (product : ProductForm) : Option UpdatedProduct :=
  if !strTruthy product.name then none
  else
    some { name := product.name
           sku := product.sku
           description := product.description
           category := product.category
           price := (parseFloat product.price).orZero
           cost := (parseFloat product.cost).orZero
           quantity := parseIntOrZero product.quantity
           imageUrl := product.imageUrl }

/-- Example form of AddProductPage that passes validation. -/
def demoAddProductForm : AddProductForm :=
  { name := " Pan integral ", sku := "", description := "", category := " Panadería",
    price := "2.50", cost := "1.2", quantity := "12", image := none }

/-- Edited form of ProductDetailPage with a negative price, cost and quantity. -/
def demoNegativeForm : ProductForm :=
  { name := "Pan", sku := "", description := "", category := "", price := "-5",
    cost := "-1.5", quantity := "-3", imageUrl := "" }

/-! ## Sales as read back from Firestore -/

/-- Sale line as stored; the subtotal may be missing. -/
structure SaleRecordItem where
  productId : String
  productName : String
  quantity : Int
  price : ℚ
  subtotal : Option ℚ
  deriving DecidableEq

/-- Sale as loaded by the history and report pages; `createdAt` is the time
value of the Date, missing when the document has no timestamp. -/
structure SaleRecord where
  id : String
  items : List SaleRecordItem
  total : Option ℚ
  paymentMethod : Option String
  notes : Option String
  createdAt : Option Int
  deriving DecidableEq

/-- The expression `x || fallback` for an optional number: a missing value and
0 are falsy. -/
def numOr (x : Option ℚ) (fallback : ℚ) : ℚ :=
  match x with
  | some v => if v ≠ 0 then v else fallback
  | none => fallback

/-- The expression `sale.total || 0`. -/
def totalOrZero (sale : SaleRecord) : ℚ :=
  numOr sale.total 0

/-! ## SalesHistoryPage -/

/-- Amount given to `formatCurrency` in `ProductTotal`:
`item.subtotal || item.price * item.quantity`. -/
def lineAmount (item : SaleRecordItem) : ℚ :=
  numOr item.subtotal (item.price * item.quantity)

/-- Calendar operations of `Date` in the local time zone, on time values. -/
structure Calendar where
  /-- Time value of `new Date()`. -/
  now : Int
  /-- Result of `setHours(0, 0, 0, 0)`. -/
  startOfDay : Int → Int
  /-- Result of `setDate(getDate() - n)`. -/
  minusDays : Int → Nat → Int
  /-- Result of `setMonth(getMonth() - n)`. -/
  minusMonths : Int → Nat → Int

/-- Callback of `sales.filter` in `filteredSales`. -/
def saleMatchesFilter (cal : Calendar) (dateFilter : String) (sale : SaleRecord) : Bool :=
  if dateFilter = "all" then true
  else
    let today := cal.startOfDay cal.now
    match sale.createdAt with
    | none => false
    | some saleDate =>
      if dateFilter = "today" then
        let saleDay := cal.startOfDay saleDate
        decide (saleDay = today)
      else if dateFilter = "week" then
        let weekAgo := cal.minusDays today 7
        decide (saleDate ≥ weekAgo)
      else if dateFilter = "month" then
        let monthAgo := cal.minusMonths today 1
        decide (saleDate ≥ monthAgo)
      else true

/-- Model of `filteredSales`: the sales that pass the date filter. -/
def filteredSales (cal : Calendar) (dateFilter : String) (sales : List SaleRecord) :
    List SaleRecord :=
  sales.filter (saleMatchesFilter cal dateFilter)

/-- Value `totalSales` of SalesHistoryPage: `filteredSales.length`. -/
def historyTotalSales (cal : Calendar) (dateFilter : String) (sales : List SaleRecord) : Nat :=
  (filteredSales cal dateFilter sales).length

/-- Value `totalAmount` of SalesHistoryPage. -/
def historyTotalAmount (cal : Calendar) (dateFilter : String) (sales : List SaleRecord) : ℚ :=
  (filteredSales cal dateFilter sales).foldl (fun sum sale => sum + totalOrZero sale) 0

/-! ## ReportsPage -/

/-- Value `totalSales` of ReportsPage: `salesData.length`. -/
def reportTotalSales (salesData : List SaleRecord) : Nat :=
  salesData.length

/-- Value `totalRevenue` of ReportsPage. -/
def totalRevenue (salesData : List SaleRecord) : ℚ :=
  salesData.foldl (fun sum sale => sum + totalOrZero sale) 0

/-- Entry of a payment-method group: `{ count, total }`. -/
structure PaymentGroup where
  count : Nat
  total : ℚ
  deriving DecidableEq

/-- Names that every object literal inherits from `Object.prototype`; reading
`acc[name]` on an object without such an own property yields the inherited
member, which is truthy. -/
def objectPrototypeKeys : List String :=
  ["constructor", "__defineGetter__", "__defineSetter__", "hasOwnProperty",
   "__lookupGetter__", "__lookupSetter__", "isPrototypeOf", "propertyIsEnumerable",
   "toString", "valueOf", "__proto__", "toLocaleString"]

/-- The expression `sale.paymentMethod || 'Efectivo'`. -/
def paymentMethodOrDefault (sale : SaleRecord) : String :=
  match sale.paymentMethod with
  | some method => if strTruthy method then method else "Efectivo"
  | none => "Efectivo"

/-- Own properties of `acc` after `if (!acc[method]) acc[method] = { count: 0,
total: 0 }; acc[method].count += 1; acc[method].total += amount` when
`acc[method]` is an own property or is undefined. -/
def addToGroup (method : String) (amount : ℚ) :
    List (String × PaymentGroup) → List (String × PaymentGroup)
  | [] => [(method, { count := 0 + 1, total := 0 + amount })]
  | (key, group) :: rest =>
    if key = method then
      (key, { count := group.count + 1, total := group.total + amount }) :: rest
    else (key, group) :: addToGroup method amount rest

/-- Reducer of `salesByPaymentMethod` on the own properties of `acc`. When
`method` is not an own property but names a member of `Object.prototype`,
`!acc[method]` is false, no own property is created and the two increments
are written on the inherited member. -/
def paymentReducer (acc : List (String × PaymentGroup)) (sale : SaleRecord) :
    List (String × PaymentGroup) :=
  let method := paymentMethodOrDefault sale
  if acc.any (fun entry => entry.1 == method) then addToGroup method (totalOrZero sale) acc
  else if method ∈ objectPrototypeKeys then acc
  else addToGroup method (totalOrZero sale) acc

/-- Model of `salesByPaymentMethod`: the entries `Object.entries` lists. -/
def salesByPaymentMethod (salesData : List SaleRecord) : List (String × PaymentGroup) :=
  salesData.foldl paymentReducer []

/-! ## AnalyticsPage -/

/-- Entry of the series returned by `predictSales`. -/
structure ForecastEntry where
  date : Int
  total : ℚ
  predicted : Bool
  deriving DecidableEq

/-- Model of `getTotalPredictions`, the value of `predictedTotal`. -/
def getTotalPredictions (salesPrediction : List ForecastEntry) : ℚ :=
  if salesPrediction.length = 0 then 0
  else (salesPrediction.filter fun item => item.predicted).foldl
    (fun sum item => sum + item.total) 0

/-- Sum of the totals of the first seven predicted entries, the figure that the
label "Próximos 7 días" announces. -/
def next7DaysTotal (salesPrediction : List ForecastEntry) : ℚ :=
  (((salesPrediction.filter fun item => item.predicted).take 7).map (·.total)).sum

/-! ## Examples -/

/-- Stored sale line whose subtotal disagrees with price * quantity. -/
def demoInconsistentItem : SaleRecordItem :=
  { productId := "p1", productName := "Pan", quantity := 3, price := 2, subtotal := some 5 }

/-- Stored sale line without subtotal. -/
def demoItemWithoutSubtotal : SaleRecordItem :=
  { productId := "p1", productName := "Pan", quantity := 3, price := 2, subtotal := none }

/-- Sale record with the given payment method and total. -/
def demoSaleRecord (paymentMethod : Option String) (total : Option ℚ)
    (createdAt : Option Int) : SaleRecord :=
  { id := "s1", items := [], total := total, paymentMethod := paymentMethod, notes := none,
    createdAt := createdAt }

/-- Calendar with days of 100 time units and months of 30 days. -/
def demoCalendar : Calendar :=
  { now := 1050
    startOfDay := fun t => t / 100 * 100
    minusDays := fun t n => t - 100 * n
    minusMonths := fun t n => t - 3000 * n }

/-- Series of a flat forecast: seven past days and thirty predicted days, each
with a total of 10. -/
def demoForecast : List ForecastEntry :=
  (List.range 7).map (fun d => { date := d, total := 10, predicted := false }) ++
  (List.range 30).map (fun d => { date := 7 + d, total := 10, predicted := true })

/-! ## AnalyticsPage: prediction chart -/

/-- Point of the prediction chart: `{ date, value, predicted }`. -/
structure ChartPoint where
  date : String
  value : ℚ
  predicted : Bool
  deriving DecidableEq

/-- Result of `getSalesPredictionChartData`: the placeholder object
`{ labels: [], datasets: [{ data: [] }] }` or the array of points. -/
inductive PredictionChartData where
  | noData
  | points (chartData : List ChartPoint)
  deriving DecidableEq

/-- Model of `array.slice(-n)`: the last n elements, all of them when the array
is shorter. -/
def sliceLast {α : Type} (n : Nat) (l : List α) : List α :=
  l.drop (l.length - n)

/-- Point built from an entry of the series; `formatDay` is
`toLocaleDateString('es-ES', ...)`. -/
def toChartPoint (formatDay : Int → String) (item : ForecastEntry) : ChartPoint :=
  { date := formatDay item.date
    value := item.total
    predicted := item.predicted }

/-- Model of `getSalesPredictionChartData`. -/
def getSalesPredictionChartData (formatDay : Int → String)
    (salesPrediction : List ForecastEntry) : PredictionChartData :=
  if salesPrediction.length = 0 then .noData
  else
    let historicalData := sliceLast 7 (salesPrediction.filter fun item => !item.predicted)
    let predictedData := (salesPrediction.filter fun item => item.predicted).take 7
    .points ((historicalData ++ predictedData).map (toChartPoint formatDay))

/-- Day label used in the examples. -/
def demoFormatDay (day : Int) : String :=
  toString day

/-! ## ProductDetailPage: load effect and stock indicator -/

/-- The expression `s || ''` for a string field that may be missing. -/
def strOrEmpty (s : Option String) : String :=
  match s with
  | some v => v
  | none => ""

/-- The expression `n ? n.toString() : ''` for an integer n: 0 is falsy. -/
def intToStringOrEmpty (n : Int) : String :=
  if n ≠ 0 then toString n else ""

/-- The expression `x ? x.toString() : ''` for a number x: 0 is falsy;
`numberToString` is `Number.prototype.toString`. -/
def numToStringOrEmpty (numberToString : ℚ → String) (x : ℚ) : String :=
  if x ≠ 0 then numberToString x else ""

/-- Form state set by the load effect for the product found in the catalog;
`imageUrl` is the `imageUrl` field of the document. -/
def loadProductForm (numberToString : ℚ → String) (imageUrl : Option String)
    (productData : Product) : ProductForm :=
  { name := productData.name
    sku := strOrEmpty productData.sku
    description := strOrEmpty productData.description
    category := strOrEmpty productData.category
    price := numToStringOrEmpty numberToString productData.price
    cost := numToStringOrEmpty numberToString productData.cost
    quantity := intToStringOrEmpty productData.quantity
    imageUrl := strOrEmpty imageUrl }

/-- Load effect of `ProductDetailPage`: `products.find(p => p.id === id)`, then
the form state; none when the product is not found (the page redirects). -/
def loadEffect (numberToString : ℚ → String) (products : List Product) (id : String) :
    Option ProductForm :=
  (products.find? fun p => p.id == id).map (loadProductForm numberToString none)

/-- Status values of the stock indicator and of the stock badge. -/
inductive StockStatus where
  | out
  | low
  | inStock
  deriving DecidableEq

/-- Comparison `parseInt(s) <= bound`: false when `parseInt(s)` is NaN. -/
def parsedLe (parsed : Option Int) (bound : Int) : Bool :=
  match parsed with
  | some n => decide (n ≤ bound)
  | none => false

/-- Prop `status` of `StockIndicator` on the detail page. -/
def stockIndicatorStatus (product : ProductForm) : StockStatus :=
  if parsedLe (parseInt product.quantity) 0 then .out
  else if parsedLe (parseInt product.quantity) 5 then .low
  else .inStock

/-- Text of `StockIndicator` on the detail page. -/
def stockIndicatorText (product : ProductForm) : String :=
  if parsedLe (parseInt product.quantity) 0 then "Agotado"
  else if parsedLe (parseInt product.quantity) 5 then "Stock Bajo"
  else "En Stock"

/-- Prop `status` of `StockBadge` in `ProductList`. -/
def stockBadgeStatus (product : Product) : StockStatus :=
  if product.quantity ≤ 0 then .out
  else if product.quantity ≤ 5 then .low
  else .inStock

/-- Product with the given id and stock, used in the examples. -/
def demoProductWithStock (id : String) (quantity : Int) : Product :=
  { id := id, name := "Pan", sku := some "PAN-1", description := none,
    category := some "Panadería", price := 3 / 2, cost := 1, quantity := quantity }

/-! ## ProductList: filter and sort effect -/

/-- Locale-dependent string operations of the JavaScript engine. -/
structure TextOps where
  /-- Result of `String.prototype.toLowerCase`. -/
  toLowerCase : String → String
  /-- Result of `String.prototype.localeCompare`. -/
  localeCompare : String → String → Int

/-- Model of `s.includes(query)`: query occurs in s as a contiguous run. -/
def includes (s query : String) : Bool :=
  decide (query.data <:+: s.data)

/-- The `sortConfig` state of `ProductList`. -/
structure SortConfig where
  key : String
  direction : String
  deriving DecidableEq

/-- Value of a property read `a[key]` on a product. -/
inductive FieldValue where
  | missing
  | str (s : String)
  | num (q : ℚ)
  deriving DecidableEq

/-- Truthiness of a property value: a missing value, '' and 0 are falsy. -/
def FieldValue.truthy : FieldValue → Bool
  | .missing => false
  | .str s => strTruthy s
  | .num q => decide (q ≠ 0)

/-- String field that may be missing, as a property value. -/
def optField (s : Option String) : FieldValue :=
  match s with
  | some v => .str v
  | none => .missing

/-- The property read `product[key]`. -/
def productField (key : String) (product : Product) : FieldValue :=
  if key = "id" then .str product.id
  else if key = "name" then .str product.name
  else if key = "sku" then optField product.sku
  else if key = "description" then optField product.description
  else if key = "category" then optField product.category
  else if key = "price" then .num product.price
  else if key = "cost" then .num product.cost
  else if key = "quantity" then .num product.quantity
  else .missing

/-- Comparator passed to `result.sort`. The two values are read from the same
field, so when both are truthy they are two strings or two numbers. -/
def compareProducts (ops : TextOps) (sortConfig : SortConfig) (a b : Product) : ℚ :=
  let va := productField sortConfig.key a
  let vb := productField sortConfig.key b
  if !va.truthy && !vb.truthy then 0
  else if !va.truthy then 1
  else if !vb.truthy then -1
  else
    match va, vb with
    | .str x, .str y =>
      if sortConfig.direction = "asc" then (ops.localeCompare x y : ℚ)
      else (ops.localeCompare y x : ℚ)
    | .num x, .num y =>
      if sortConfig.direction = "asc" then x - y else y - x
    | _, _ => 0

/-- Model of `Array.prototype.sort(compare)`: a stable sort that puts a before b
when `compare(a, b) <= 0`. -/
def jsSort {α : Type} (compare : α → α → ℚ) (l : List α) : List α :=
  l.insertionSort fun a b => compare a b ≤ 0

/-- Callback of the search filter of `ProductList`; `query` is the lower-cased
search text. -/
def matchesQuery (ops : TextOps) (query : String) (product : Product) : Bool :=
  (strTruthy product.name && includes (ops.toLowerCase product.name) query) ||
  (match product.sku with
    | some sku => strTruthy sku && includes (ops.toLowerCase sku) query
    | none => false) ||
  (match product.description with
    | some description =>
      strTruthy description && includes (ops.toLowerCase description) query
    | none => false)

/-- Filter and sort effect of `ProductList`: the value given to
`setFilteredProducts`. -/
def filterAndSort (ops : TextOps) (products : List Product) (searchQuery : String)
    (selectedCategory : String) (sortConfig : SortConfig) : List Product :=
  let result := products
  let result :=
    if selectedCategory ≠ "Todos" then
      result.filter fun product => decide (product.category = some selectedCategory)
    else result
  let result :=
    if strTruthy searchQuery then
      let query := ops.toLowerCase searchQuery
      result.filter (matchesQuery ops query)
    else result
  let result :=
    if strTruthy sortConfig.key then jsSort (compareProducts ops sortConfig) result
    else result
  result

/-- A field contains the search text ignoring case: the field is present and
its lower-cased value includes the lower-cased text. -/
def containsIgnoringCase (ops : TextOps) (field : Option String) (searchText : String) : Bool :=
  match field with
  | some value => includes (ops.toLowerCase value) (ops.toLowerCase searchText)
  | none => false

/-- The products the list is to display for a category and a search text: those
of the selected category (all for 'Todos') whose name, sku or description
contains the search text ignoring case when the text is not empty. -/
def shouldDisplay (ops : TextOps) (searchQuery selectedCategory : String)
    (product : Product) : Bool :=
  (decide (selectedCategory = "Todos") || decide (product.category = some selectedCategory)) &&
  (decide (searchQuery = "") ||
    containsIgnoringCase ops (some product.name) searchQuery ||
    containsIgnoringCase ops product.sku searchQuery ||
    containsIgnoringCase ops product.description searchQuery)

/-- Lower-casing and comparison of ASCII strings, used in the examples. -/
def asciiTextOps : TextOps :=
  { toLowerCase := fun s => String.mk (s.data.map Char.toLower)
    localeCompare := fun a b => if a < b then -1 else if a = b then 0 else 1 }

/-- Catalog used in the examples of the product list. -/
def demoCatalog : List Product :=
  [ { demoProductWithStock "p1" 4 with name := "Pan Integral" },
    { demoProductWithStock "p2" 0 with name := "Leche", category := some "Lácteos" },
    { demoProductWithStock "p3" 9 with name := "Baguette", description := some "pan francés" } ]

/-! ## SalesPage: checkout handler -/

/-- What `handleCheckout` did: the state it leaves, the argument of its call
to `registerSale` if it made one, and whether it navigated to the history. -/
structure CheckoutResult where
  state : SalesPageState
  registerSaleCall : Option SaleData
  navigated : Bool
  deriving DecidableEq

/-- State after `setCartItems([])`, `setNotes('')`, `setPaymentMethod('Efectivo')`. -/
def clearedSalesPageState : SalesPageState :=
  { cartItems := [], notes := "", paymentMethod := "Efectivo" }

/-- Model of `handleCheckout`; `registerSaleSucceeds saleData` tells whether the
awaited `registerSale(saleData)` resolves (true) or throws (false), in which
case control passes to the catch block. -/
def handleCheckout (registerSaleSucceeds : SaleData → Bool) (st : SalesPageState)
    (now : Int) : CheckoutResult :=
  if st.cartItems.length = 0 then
    { state := st, registerSaleCall := none, navigated := false }
  else
    let saleData := buildSaleData st now
    if registerSaleSucceeds saleData then
      { state := clearedSalesPageState, registerSaleCall := some saleData, navigated := true }
    else
      { state := st, registerSaleCall := some saleData, navigated := false }

/-! ## AddProductPage: new category -/

/-- Category document as listed by `InventoryContext`. -/
structure Category where
  id : String
  name : String
  deriving DecidableEq

/-- Model of `addNewCategory`: the name passed to `addCategory({ name })`, or
none when the handler returns before the call. -/
def addNewCategory (ops : TextOps) (categories : List Category) (categorySearch : String) :
    Option String :=
  if jsTrim categorySearch = "" then none
  else
    let alreadyExists := categories.any fun cat =>
      decide (ops.toLowerCase cat.name = ops.toLowerCase categorySearch)
    if alreadyExists then none
    else some (jsTrim categorySearch)

/-! ## PrivateRoute -/

/-- The `user` object of `AuthContext`. -/
structure AuthUser where
  uid : String
  email : String
  deriving DecidableEq

/-- Value of `AuthContext` read by `PrivateRoute`. -/
structure AuthState where
  user : Option AuthUser
  loading : Bool
  deriving DecidableEq

/-- Element returned by `PrivateRoute` for a protected component. -/
inductive RouteView (Component : Type) where
  | loadingIndicator
  | navigate (target : String) (replace : Bool)
  | appLayout (component : Component)
  deriving DecidableEq

/-- Model of the component `PrivateRoute`. -/
def PrivateRoute {Component : Type} (auth : AuthState) (component : Component) :
    RouteView Component :=
  if auth.loading then .loadingIndicator
  else
    match auth.user with
    | none => .navigate "/login" true
    | some _ => .appLayout component

/-! ## Sales analytics engine

The page `AnalyticsPage` imports `predictSales`, `getRestockRecommendations`,
`getProductPerformance` and `analyzeSeasonalPatterns` from the module
`utils/analysisUtils`, which is not among the source files. The definitions of
this section follow the specification of the engine (sections 4.2 and 4.3).
Calendar days are day numbers; `dayOf` maps the time value of a timestamp to
its day and `today` is the injected reference day. -/

/-- Modelled from the spec: the error taxonomy of the engine (section 7), of
which `InvalidArgument` is the only thrown error; the module
`utils/analysisUtils` is missing. -/
inductive EngineError where
  | invalidArgument
  deriving DecidableEq

/-- Modelled from the spec: the revenue of a sale, recomputed by the engine as
the sum of price * quantity over its items instead of the stored total (data
model, `Sale`); the module `utils/analysisUtils` is missing. -/
def recomputedTotal (sale : SaleRecord) : ℚ :=
  (sale.items.map fun item => item.price * (item.quantity : ℚ)).sum

/-- Modelled from the spec: the days of the sales that have a timestamp (sales
lacking one are excluded from every time-based computation); the module
`utils/analysisUtils` is missing. -/
def saleDays (dayOf : Int → Int) (sales : List SaleRecord) : List Int :=
  sales.filterMap fun sale => sale.createdAt.map dayOf

/-- Modelled from the spec: the earliest day of a list of days, `min(date(sales))`
of section 4.2 step 1; the module `utils/analysisUtils` is missing. -/
def earliestDay : List Int → Option Int
  | [] => none
  | day :: days => some (days.foldl min day)

/-- Modelled from the spec: the revenue recorded on one day; the module
`utils/analysisUtils` is missing. -/
def dayRevenue (dayOf : Int → Int) (sales : List SaleRecord) (day : Int) : ℚ :=
  ((sales.filter fun sale => decide (sale.createdAt.map dayOf = some day)).map
    recomputedTotal).sum

/-- Modelled from the spec: the dense daily series over `[min(date(sales)),
today]` with zero-revenue days filled in (section 4.2 step 1), as historical
entries; the module `utils/analysisUtils` is missing. -/
def denseSeries (dayOf : Int → Int) (today : Int) (sales : List SaleRecord) :
    List ForecastEntry :=
  match earliestDay (saleDays dayOf sales) with
  | none => []
  | some first =>
    (List.range (today - first + 1).toNat).map fun (i : Nat) =>
      { date := first + (i : Int)
        total := dayRevenue dayOf sales (first + (i : Int))
        predicted := false }

/-- Modelled from the spec: the fixed lookback window of 7 days (section 4.2
step 2); the module `utils/analysisUtils` is missing. -/
def lookbackWindow : Nat := 7

/-- Modelled from the spec: the trailing moving average over the lookback window
(section 4.2 step 2): entry i is the mean of the values of the up to 7 days
that end at day i; the module `utils/analysisUtils` is missing. -/
def movingAverage (values : List ℚ) : List ℚ :=
  (List.range values.length).map fun (i : Nat) =>
    let window := (values.take (i + 1)).drop (i + 1 - lookbackWindow)
    window.sum / window.length

/-- Modelled from the spec: the ordinary-least-squares slope of the smoothed
values of the lookback window against their index (section 4.2 step 2); the
module `utils/analysisUtils` is missing. -/
def trendSlope (smoothed : List ℚ) : ℚ :=
  let ys := sliceLast lookbackWindow smoothed
  let xs := (List.range ys.length).map fun (i : Nat) => (i : ℚ)
  let xMean := xs.sum / xs.length
  let yMean := ys.sum / ys.length
  let spread := (xs.map fun x => (x - xMean) * (x - xMean)).sum
  if spread = 0 then 0
  else ((xs.zip ys).map fun xy => (xy.1 - xMean) * (xy.2 - yMean)).sum / spread

/-- Modelled from the spec: `forecast(sales, horizonDays)` of section 4.2, the
function `predictSales` of the missing module `utils/analysisUtils`. A
non-positive horizon fails fast; with fewer than 2 days in the daily series
the predicted tail is empty; otherwise the historical entries are followed by
`horizonDays` projected entries `lastSmoothedValue + trendSlope * daysAhead`
floored at zero. -/
def forecast (dayOf : Int → Int) (today : Int) (sales : List SaleRecord)
    (horizonDays : Int) : Except EngineError (List ForecastEntry) :=
  if horizonDays ≤ 0 then .error .invalidArgument
  else
    let historical := denseSeries dayOf today sales
    if historical.length < 2 then .ok historical
    else
      let smoothed := movingAverage (historical.map (·.total))
      let lastSmoothedValue := smoothed.getLast?.getD 0
      let slope := trendSlope smoothed
      .ok (historical ++
        (List.range horizonDays.toNat).map fun (i : Nat) =>
          { date := today + ((i : Int) + 1)
            total := max 0 (lastSmoothedValue + slope * ((i : ℚ) + 1))
            predicted := true })

/-- Modelled from the spec: the urgency tier of section 4.3 step 5; the module
`utils/analysisUtils` is missing. -/
inductive Urgency where
  | high
  | medium
  | low
  deriving DecidableEq

/-- Modelled from the spec: `RestockItem` of section 4.3; the module
`utils/analysisUtils` is missing. -/
structure RestockItem where
  productId : String
  name : String
  sku : Option String
  quantity : Int
  dailySalesRate : ℚ
  daysUntilOutOfStock : ℚ
  recommendedQuantity : Int
  urgency : Urgency
  deriving DecidableEq

/-- Modelled from the spec: the trailing analysis window of section 4.3 step 1,
the sales dated within the last `windowDays` days up to today; the module
`utils/analysisUtils` is missing. -/
def windowSales (dayOf : Int → Int) (today : Int) (windowDays : Int)
    (sales : List SaleRecord) : List SaleRecord :=
  sales.filter fun sale =>
    match sale.createdAt with
    | some t => decide (today - windowDays < dayOf t ∧ dayOf t ≤ today)
    | none => false

/-- Modelled from the spec: the quantity sold of a product, summed over all sale
items that reference it (section 4.3 step 2); the module
`utils/analysisUtils` is missing. -/
def totalSold (sales : List SaleRecord) (productId : String) : Int :=
  (sales.map fun sale =>
    ((sale.items.filter fun item => item.productId == productId).map (·.quantity)).sum).sum

/-- Modelled from the spec: the urgency tiering of section 4.3 step 5, with
inclusive upper bounds; the module `utils/analysisUtils` is missing. -/
def urgencyTier (daysUntilOutOfStock : ℚ) (thresholdDays : Int) : Urgency :=
  if daysUntilOutOfStock ≤ (thresholdDays : ℚ) / 3 then .high
  else if daysUntilOutOfStock ≤ (thresholdDays : ℚ) * 2 / 3 then .medium
  else .low

/-- Modelled from the spec: the recommendation for one product (section 4.3
steps 2 to 6), none when the product is excluded; the module
`utils/analysisUtils` is missing. -/
def restockItem? (windowDays thresholdDays : Int) (window : List SaleRecord)
    (product : Product) : Option RestockItem :=
  let dailySalesRate : ℚ := (totalSold window product.id : ℚ) / (windowDays : ℚ)
  if dailySalesRate = 0 then none
  else
    let daysUntilOutOfStock : ℚ :=
      if product.quantity ≤ 0 then 0 else (product.quantity : ℚ) / dailySalesRate
    if daysUntilOutOfStock ≤ (thresholdDays : ℚ) then
      some { productId := product.id
             name := product.name
             sku := product.sku
             quantity := product.quantity
             dailySalesRate := dailySalesRate
             daysUntilOutOfStock := daysUntilOutOfStock
             recommendedQuantity :=
               max 1 (Int.ceil (dailySalesRate * thresholdDays * 2) - product.quantity)
             urgency := urgencyTier daysUntilOutOfStock thresholdDays }
    else none

/-- Modelled from the spec: rank of an urgency tier, the most urgent first; the
module `utils/analysisUtils` is missing. -/
def Urgency.rank : Urgency → Nat
  | .high => 0
  | .medium => 1
  | .low => 2

/-- Modelled from the spec: the output ordering of section 4.3, most urgent
first and ties broken by ascending `daysUntilOutOfStock`; the module
`utils/analysisUtils` is missing. -/
def restockBefore (a b : RestockItem) : Prop :=
  a.urgency.rank < b.urgency.rank ∨
    (a.urgency.rank = b.urgency.rank ∧ a.daysUntilOutOfStock ≤ b.daysUntilOutOfStock)

instance : DecidableRel restockBefore := fun a b => by
  unfold restockBefore
  infer_instance

/-- Modelled from the spec: `recommend(products, sales, thresholdDays)` of
section 4.3, the function `getRestockRecommendations` of the missing module
`utils/analysisUtils`; the window length is supplied by the caller and a
non-positive threshold or window fails fast. -/
def recommend (dayOf : Int → Int) (today : Int) (windowDays : Int) (products : List Product)
    (sales : List SaleRecord) (thresholdDays : Int) : Except EngineError (List RestockItem) :=
  if thresholdDays ≤ 0 ∨ windowDays ≤ 0 then .error .invalidArgument
  else
    let window := windowSales dayOf today windowDays sales
    .ok ((products.filterMap (restockItem? windowDays thresholdDays window)).insertionSort
      restockBefore)

/-- Text of `DaysLabel` in the restock tab of `AnalyticsPage`; `numberToString`
renders the number inside the template literal. -/
def restockDaysLabel (numberToString : ℚ → String) (item : RestockItem) : String :=
  if item.daysUntilOutOfStock ≤ 0 then "Agotado"
  else numberToString item.daysUntilOutOfStock ++ " días hasta agotarse"

/-- Sale of the given day with one line of `quantity` units of product
`productId` at price 10; a day lasts 100 time units. -/
def demoEngineSale (day : Int) (productId : String) (quantity : Int) : SaleRecord :=
  { id := "s", items := [{ productId := productId, productName := "Pan", quantity := quantity,
                           price := 10, subtotal := none }],
    total := none, paymentMethod := none, notes := none, createdAt := some (day * 100) }

/-- Day of a time value when a day lasts 100 time units. -/
def demoDayOf (t : Int) : Int :=
  t / 100

/-- Catalog of the restock example: p1 with 10 units, p2 out of stock. -/
def demoRestockProducts : List Product :=
  [demoProductWithStock "p1" 10, demoProductWithStock "p2" 0]

/-- Sales of the restock example: two units of p1 on each of the days 1 to 14 and
one unit of p2 on day 3. -/
def demoRestockSales : List SaleRecord :=
  (List.range 14).map (fun (d : Nat) => demoEngineSale ((d : Int) + 1) "p1" 2) ++
    [demoEngineSale 3 "p2" 1]

/-- The ten decimal digit characters. -/
def decimalDigitChars : List Char :=
  ['0', '1', '2', '3', '4', '5', '6', '7', '8', '9']

/-! ## ProductDetailPage: profit margin -/

/-- Subtraction of JavaScript numbers. -/
def JSNumber.sub : JSNumber → JSNumber → JSNumber
  | .nan, _ => .nan
  | _, .nan => .nan
  | .num a, .num b => .num (a - b)
  | .posInf, .posInf => .nan
  | .negInf, .negInf => .nan
  | .posInf, _ => .posInf
  | .negInf, _ => .negInf
  | .num _, .posInf => .negInf
  | .num _, .negInf => .posInf

/-- Multiplication of JavaScript numbers. -/
def JSNumber.mul : JSNumber → JSNumber → JSNumber
  | .nan, _ => .nan
  | _, .nan => .nan
  | .num a, .num b => .num (a * b)
  | .posInf, .num b => if b = 0 then .nan else if 0 < b then .posInf else .negInf
  | .negInf, .num b => if b = 0 then .nan else if 0 < b then .negInf else .posInf
  | .num a, .posInf => if a = 0 then .nan else if 0 < a then .posInf else .negInf
  | .num a, .negInf => if a = 0 then .nan else if 0 < a then .negInf else .posInf
  | .posInf, .posInf => .posInf
  | .negInf, .negInf => .posInf
  | .posInf, .negInf => .negInf
  | .negInf, .posInf => .negInf

/-- Division of JavaScript numbers; the zero divisor is taken as +0 (the sign of
zero is not modelled). -/
def JSNumber.div : JSNumber → JSNumber → JSNumber
  | .nan, _ => .nan
  | _, .nan => .nan
  | .num a, .num b =>
    if b = 0 then (if a = 0 then .nan else if 0 < a then .posInf else .negInf)
    else .num (a / b)
  | .num _, .posInf => .num 0
  | .num _, .negInf => .num 0
  | .posInf, .num b => if 0 ≤ b then .posInf else .negInf
  | .negInf, .num b => if 0 ≤ b then .negInf else .posInf
  | .posInf, .posInf => .nan
  | .posInf, .negInf => .nan
  | .negInf, .posInf => .nan
  | .negInf, .negInf => .nan

/-- Model of `calculateProfit` of `ProductDetailPage`. -/
def calculateProfit (product : ProductForm) : JSNumber :=
  let price := parseFloat product.price
  let cost := parseFloat product.cost
  if price.isNaN || cost.isNaN || decide (price = .num 0) then .num 0
  else ((price.sub cost).div price).mul (.num 100)

/-- Exponent of a valid floating-point number of HTML: e or E, an optional
sign, one or more digits, up to the end. -/
def validExponentChars : List Char → Bool
  | [] => true
  | c :: rest =>
    (c = 'e' || c = 'E') &&
      (match rest with
        | '+' :: ds => !ds.isEmpty && ds.all Char.isDigit
        | '-' :: ds => !ds.isEmpty && ds.all Char.isDigit
        | ds => !ds.isEmpty && ds.all Char.isDigit)

/-- Unsigned part of a valid floating-point number of HTML: digits, or digits
with a fraction, or a fraction alone, then an optional exponent. -/
def validUnsignedFloatChars (cs : List Char) : Bool :=
  let intDigits := cs.takeWhile Char.isDigit
  let afterInt := cs.dropWhile Char.isDigit
  match afterInt with
  | '.' :: rest =>
    !(rest.takeWhile Char.isDigit).isEmpty && validExponentChars (rest.dropWhile Char.isDigit)
  | _ => !intDigits.isEmpty && validExponentChars afterInt

/-- The values an `input` element of `type="number"` reports: the empty string,
or a valid floating-point number (an optional minus sign, then the unsigned
part). The price, cost and quantity inputs of the product pages are of this
type. -/
def isNumberInputValue (s : String) : Bool :=
  match s.data with
  | [] => true
  | '-' :: rest => validUnsignedFloatChars rest
  | cs => validUnsignedFloatChars cs

/-- Form state of the detail page with the given price and cost. -/
def demoProfitForm (price cost : String) : ProductForm :=
  { name := "Pan", sku := "", description := "", category := "", price := price,
    cost := cost, quantity := "3", imageUrl := "" }

/-! ## Seasonal patterns

`analyzeSeasonalPatterns` belongs to the module `utils/analysisUtils`, which is
not among the source files; `analyzeSeasonality` follows sections 4.1, 4.5 and 7
of the specification. `getSeasonalChartData` and `renderSeasonalTab` are the
functions of `AnalyticsPage`. -/

/-- Modelled from the spec: the local calendar of time bucketing (section 4.1),
day of week, hour of day and month of a time value and their labels; the
module `utils/analysisUtils` is missing. -/
structure SeasonCalendar where
  dayOfWeek : Int → Nat
  hourOfDay : Int → Nat
  month : Int → Nat
  dayName : Nat → String
  hourLabel : Nat → String
  monthName : Nat → String

/-- Modelled from the spec: one entry of a bucket map (section 4.1), the bucket
key with its aggregate of total revenue and transaction count, and the label
of the key; the page reads the label as `dayName` and the revenue as `total`.
The module `utils/analysisUtils` is missing. -/
structure SeasonBucket where
  key : Nat
  dayName : String
  total : ℚ
  count : Nat
  deriving DecidableEq

/-- Modelled from the spec: adding one sale to a bucket map, keeping the
insertion order of first occurrence (section 4.1); the module
`utils/analysisUtils` is missing. -/
def addToBucket (key : Nat) (label : String) (revenue : ℚ) :
    List SeasonBucket → List SeasonBucket
  | [] => [{ key := key, dayName := label, total := revenue, count := 1 }]
  | bucket :: rest =>
    if bucket.key = key then
      { bucket with total := bucket.total + revenue, count := bucket.count + 1 } :: rest
    else bucket :: addToBucket key label revenue rest

/-- Modelled from the spec: TimeBucketing of section 4.1 for one bucketing key;
sales without timestamp are skipped silently. The module `utils/analysisUtils`
is missing. -/
def bucketSales (keyOf : Int → Nat) (labelOf : Nat → String) (sales : List SaleRecord) :
    List SeasonBucket :=
  sales.foldl (fun buckets sale =>
    match sale.createdAt with
    | some t => addToBucket (keyOf t) (labelOf (keyOf t)) (recomputedTotal sale) buckets
    | none => buckets) []

/-- Modelled from the spec: the labels of the buckets whose revenue is within the
top quartile, or the top 2 when fewer than 8 buckets are present (section 4.5
steps 2 and 3); the module `utils/analysisUtils` is missing. -/
def topBucketLabels (buckets : List SeasonBucket) : List String :=
  let ranked := buckets.insertionSort fun a b => a.total ≥ b.total
  let howMany := if buckets.length < 8 then 2 else (buckets.length + 3) / 4
  (ranked.take howMany).map (·.dayName)

/-- Modelled from the spec: the months whose revenue exceeds 1.2 times the mean
monthly revenue of the represented months (section 4.5 step 4); the module
`utils/analysisUtils` is missing. -/
def highSeasonLabels (buckets : List SeasonBucket) : List String :=
  let mean := (buckets.map (·.total)).sum / buckets.length
  (buckets.filter fun bucket => decide (bucket.total > 6 / 5 * mean)).map (·.dayName)

/-- Modelled from the spec: the explicit sentinel string that represents
insufficient data in-band in a field that holds a string (section 4.5 step 5
and section 7); the module `utils/analysisUtils` is missing. -/
def insufficientData : String := "insufficient data"

/-- Modelled from the spec: value that the page reads from a recommendation
field that lists labels (section 4.5 steps 2 to 4): an array of labels, which
the analysis produces, or a string, which JavaScript would let through as
well; the module `utils/analysisUtils` is missing. -/
inductive RecommendationField where
  | names (items : List String)
  | sentinel (text : String)
  deriving DecidableEq

/-- Modelled from the spec: the `recommendations` of section 4.5; the module
`utils/analysisUtils` is missing. -/
structure SeasonalRecommendations where
  peakDays : RecommendationField
  peakHours : RecommendationField
  highSeasonMonths : RecommendationField
  staffingRecommendation : String
  deriving DecidableEq

/-- Modelled from the spec: the result `{byDayOfWeek, byHour, byMonth,
recommendations}` of section 4.5; the module `utils/analysisUtils` is missing. -/
structure SeasonalPatterns where
  byDayOfWeek : List SeasonBucket
  byHour : List SeasonBucket
  byMonth : List SeasonBucket
  recommendations : SeasonalRecommendations
  deriving DecidableEq

/-- Modelled from the spec: the templated staffing recommendation naming the
peak days and peak hours (section 4.5 step 5); the module
`utils/analysisUtils` is missing. -/
def staffingTemplate (peakDays peakHours : List String) : String :=
  "Reforzar el personal los días " ++ ", ".intercalate peakDays ++
    " en las horas " ++ ", ".intercalate peakHours

/-- Modelled from the spec: `analyzeSeasonality(sales)` of section 4.5, the
function `analyzeSeasonalPatterns` of the missing module `utils/analysisUtils`.
The peak days, peak hours and high season months are lists of labels (steps 2
to 4), empty when there is no data for them (section 7: insufficient data is
an empty result collection or an explicit sentinel string); the staffing
recommendation is the template when both peak lists are non-empty, the
sentinel string otherwise (step 5). -/
def analyzeSeasonality (cal : SeasonCalendar) (sales : List SaleRecord) : SeasonalPatterns :=
  let byDayOfWeek := bucketSales cal.dayOfWeek cal.dayName sales
  let byHour := bucketSales cal.hourOfDay cal.hourLabel sales
  let byMonth := bucketSales cal.month cal.monthName sales
  let peakDays := topBucketLabels byDayOfWeek
  let peakHours := topBucketLabels byHour
  { byDayOfWeek := byDayOfWeek
    byHour := byHour
    byMonth := byMonth
    recommendations :=
      { peakDays := .names peakDays
        peakHours := .names peakHours
        highSeasonMonths := .names (highSeasonLabels byMonth)
        staffingRecommendation :=
          if peakDays.length > 0 ∧ peakHours.length > 0 then
            staffingTemplate peakDays peakHours
          else insufficientData } }

/-- Bar of the seasonal chart: `{ name, value }`. -/
structure SeasonalBar where
  name : String
  value : ℚ
  deriving DecidableEq

/-- Model of `s.substring(0, 3)`. -/
def substring3 (s : String) : String :=
  String.mk (s.data.take 3)

/-- Model of `getSeasonalChartData`; the state `seasonalPatterns` is null until
the analysis is stored. -/
def getSeasonalChartData (seasonalPatterns : Option SeasonalPatterns) : List SeasonalBar :=
  match seasonalPatterns with
  | none => []
  | some patterns =>
    patterns.byDayOfWeek.map fun day =>
      { name := substring3 day.dayName, value := day.total }

/-- Exception thrown while rendering. -/
inductive JSError where
  | typeError (message : String)
  deriving DecidableEq

/-- Text of an insight card for a list field: the expression
`field.length > 0 ? field.join(', ') : 'Sin datos suficientes'`. An array has
`length` and `join`; a string has `length` but no `join`, so calling it on a
non-empty string throws a TypeError. -/
def insightText (property : String) (field : RecommendationField) : Except JSError String :=
  match field with
  | .names items =>
    if items.length > 0 then .ok (", ".intercalate items) else .ok "Sin datos suficientes"
  | .sentinel text =>
    if text.length > 0 then
      .error (.typeError ("recommendations." ++ property ++ ".join is not a function"))
    else .ok "Sin datos suficientes"

/-- What the seasonal tab shows: the bars of the chart (the no-data notice when
there is none) and the texts of the four insight cards. -/
structure SeasonalTabView where
  chartData : List SeasonalBar
  peakDays : String
  peakHours : String
  staffing : String
  highSeason : String
  deriving DecidableEq

/-- Element returned by `renderSeasonalTab`. -/
inductive SeasonalTab where
  | loading
  | tab (view : SeasonalTabView)
  deriving DecidableEq

/-- Model of `renderSeasonalTab`: the loading indicator while `seasonalPatterns`
is null, otherwise the chart and the four insight cards, evaluated in source
order. -/
def renderSeasonalTab (seasonalPatterns : Option SeasonalPatterns) :
    Except JSError SeasonalTab :=
  match seasonalPatterns with
  | none => .ok .loading
  | some patterns =>
    let recommendations := patterns.recommendations
    let chartData := getSeasonalChartData seasonalPatterns
    match insightText "peakDays" recommendations.peakDays with
    | .error e => .error e
    | .ok peakDays =>
      match insightText "peakHours" recommendations.peakHours with
      | .error e => .error e
      | .ok peakHours =>
        let staffing :=
          if strTruthy recommendations.staffingRecommendation then
            recommendations.staffingRecommendation
          else "Sin recomendaciones disponibles"
        match insightText "highSeasonMonths" recommendations.highSeasonMonths with
        | .error e => .error e
        | .ok highSeason =>
          .ok (.tab { chartData := chartData, peakDays := peakDays, peakHours := peakHours,
                      staffing := staffing, highSeason := highSeason })

/-- Calendar of the seasonal examples: a day lasts 100 time units, a week 7
days, a month 30 days, an hour 4 time units. -/
def demoSeasonCalendar : SeasonCalendar :=
  { dayOfWeek := fun t => (t / 100 % 7).toNat
    hourOfDay := fun t => (t % 100 / 4).toNat
    month := fun t => (t / 3000 % 12).toNat
    dayName := fun d => ["Domingo", "Lunes", "Martes", "Miércoles", "Jueves", "Viernes",
      "Sábado"].getD d ""
    hourLabel := fun h => toString h ++ ":00"
    monthName := fun m => "Mes " ++ toString (m + 1) }

/-! ## Theorems -/

theorem foldl_add_eq_sum_aux {α : Type} (f : α → ℚ) (l : List α) (a : ℚ) :
    l.foldl (fun sum x => sum + f x) a = a + (l.map f).sum := by
  induction l generalizing a with
  | nil => simp
  | cons x xs ih => simp [ih, add_assoc]

/-- C1: the payload built by handleCheckout exists exactly for a non-empty
cart; each of its items has subtotal = price * quantity and its total is the
sum of its items' subtotals. -/
theorem C1_checkout_payload_totals (st : SalesPageState) (now : Int) :
    (st.cartItems ≠ [] → ∃ sale, checkoutPayload st now = some sale) ∧
    ∀ sale, checkoutPayload st now = some sale →
      (∀ line ∈ sale.items, line.subtotal = line.price * line.quantity) ∧
      sale.total = (sale.items.map (·.subtotal)).sum ∧
      sale.total = sale.items.foldl (fun sum line => sum + line.subtotal) 0 := by
  refine ⟨fun h => ?_, fun sale hs => ?_⟩
  · refine ⟨buildSaleData st now, ?_⟩
    unfold checkoutPayload
    rw [if_neg]
    simpa [List.length_eq_zero] using h
  · unfold checkoutPayload at hs
    split at hs
    · exact absurd hs (by simp)
    · have hsale : sale = buildSaleData st now := by
        simpa using hs.symm
      subst hsale
      have htot : (buildSaleData st now).total =
          (((buildSaleData st now).items).map (·.subtotal)).sum := by
        simp [buildSaleData, total, foldl_add_eq_sum_aux, List.map_map, Function.comp_def]
      refine ⟨?_, htot, ?_⟩
      · intro line hl
        simp only [buildSaleData, List.mem_map] at hl
        obtain ⟨item, _, rfl⟩ := hl
        rfl
      · rw [foldl_add_eq_sum_aux, zero_add]
        exact htot

theorem C1_checkout_payload_totals_witness :
    ∃ sale, checkoutPayload demoSalesPageState 0 = some sale ∧
      sale.total = (sale.items.map (·.subtotal)).sum :=
  have h := C1_checkout_payload_totals demoSalesPageState 0
  match h.1 (by simp [demoSalesPageState]) with
  | ⟨sale, hs⟩ => ⟨sale, hs, (h.2 sale hs).2.1⟩

/-! ### Cart invariant -/

theorem findIndex_some {α : Type} (p : α → Bool) (l : List α) (i : Nat)
    (h : findIndex p l = some i) : ∃ x, l.get? i = some x ∧ p x = true := by
  induction l generalizing i with
  | nil => simp [findIndex] at h
  | cons y ys ih =>
    unfold findIndex at h
    split at h
    · rename_i hp
      cases h
      exact ⟨y, rfl, hp⟩
    · cases hf : findIndex p ys with
      | none => simp [hf] at h
      | some j =>
        simp [hf] at h
        subst h
        obtain ⟨x, hx, hpx⟩ := ih j hf
        exact ⟨x, by simpa using hx, hpx⟩

theorem cartInv_set (stock : String → Int) (cartItems : List CartItem) (i : Nat)
    (item : CartItem) (hinv : CartInv stock cartItems)
    (hitem : 1 ≤ item.quantity ∧ item.quantity ≤ item.maxQuantity ∧
      item.maxQuantity = stock item.productId) :
    CartInv stock (cartItems.set i item) := by
  intro x hx
  rcases List.mem_or_eq_of_mem_set hx with h | h
  · exact hinv x h
  · subst h
    exact hitem

theorem cartInv_addToCart (stock : String → Int) (cartItems : List CartItem)
    (product : Product) (hinv : CartInv stock cartItems)
    (hq : 1 ≤ product.quantity) (hs : product.quantity = stock product.id) :
    CartInv stock (addToCart cartItems product) := by
  unfold addToCart
  split
  · rename_i existingItemIndex hfind
    obtain ⟨x, hx, hpx⟩ := findIndex_some _ _ _ hfind
    rw [hx]
    have hxmem : x ∈ cartItems := List.get?_mem hx
    have hid : x.productId = product.id := by simpa using hpx
    obtain ⟨h1, h2, h3⟩ := hinv x hxmem
    dsimp only
    split
    · exact hinv
    · rename_i hlt
      apply cartInv_set stock cartItems existingItemIndex _ hinv
      refine ⟨by simp only; omega, ?_, by simpa using h3⟩
      simp only
      rw [h3, hid, ← hs]
      omega
  · intro x hx
    rcases List.mem_append.mp hx with h | h
    · exact hinv x h
    · simp only [List.mem_singleton] at h
      subst h
      exact ⟨le_refl _, hq, hs⟩

theorem cartInv_removeFromCart (stock : String → Int) (cartItems : List CartItem)
    (index : Nat) (hinv : CartInv stock cartItems) :
    CartInv stock (removeFromCart cartItems index) := by
  intro x hx
  exact hinv x ((List.eraseIdx_sublist cartItems index).subset hx)

theorem cartInv_updateItemQuantity (stock : String → Int) (cartItems : List CartItem)
    (index : Nat) (newQuantity : Int) (hinv : CartInv stock cartItems) :
    CartInv stock ((updateItemQuantity cartItems index newQuantity).getD cartItems) := by
  unfold updateItemQuantity
  split
  · exact hinv
  · rename_i item hget
    obtain ⟨_, _, h3⟩ := hinv item (List.get?_mem hget)
    dsimp only
    split
    · exact hinv
    · split
      · exact cartInv_removeFromCart stock cartItems index hinv
      · apply cartInv_set stock cartItems index _ hinv
        refine ⟨by simp only; omega, by simp only; omega, by simpa using h3⟩

theorem cartInv_foldl (stock : String → Int) (actions : List CartAction)
    (cartItems : List CartItem) (hinv : CartInv stock cartItems)
    (hstock : ∀ product, CartAction.add product ∈ actions →
      1 ≤ product.quantity ∧ product.quantity = stock product.id) :
    CartInv stock (actions.foldl applyCartAction cartItems) := by
  induction actions generalizing cartItems with
  | nil => exact hinv
  | cons a as ih =>
    simp only [List.foldl_cons]
    apply ih
    · cases a with
      | add product =>
        obtain ⟨hq, hs⟩ := hstock product (List.mem_cons_self _ _)
        exact cartInv_addToCart stock cartItems product hinv hq hs
      | remove index => exact cartInv_removeFromCart stock cartItems index hinv
      | update index newQuantity =>
        exact cartInv_updateItemQuantity stock cartItems index newQuantity hinv
    · intro product hp
      exact hstock product (List.mem_cons_of_mem _ hp)

/-- C2: starting from the empty cart, after any sequence of addToCart (with
products whose stock is at least 1 and is the fixed stock of their id),
removeFromCart and updateItemQuantity, every cart item has
1 <= quantity <= maxQuantity, and every sale line of the checkout payload has
a quantity > 0 that does not exceed the stock of its product. -/
theorem C2_cart_invariant (stock : String → Int) (actions : List CartAction)
    (hstock : ∀ product, CartAction.add product ∈ actions →
      1 ≤ product.quantity ∧ product.quantity = stock product.id) :
    (∀ item ∈ runCart actions, 1 ≤ item.quantity ∧ item.quantity ≤ item.maxQuantity) ∧
    ∀ (notes paymentMethod : String) (now : Int) (sale : SaleData),
      checkoutPayload ⟨runCart actions, notes, paymentMethod⟩ now = some sale →
      ∀ line ∈ sale.items, 0 < line.quantity ∧ line.quantity ≤ stock line.productId := by
  have hinv : CartInv stock (runCart actions) :=
    cartInv_foldl stock actions [] (fun _ h => absurd h (List.not_mem_nil _)) hstock
  refine ⟨fun item hi => ⟨(hinv item hi).1, (hinv item hi).2.1⟩, ?_⟩
  intro notes paymentMethod now sale hsale line hline
  unfold checkoutPayload at hsale
  split at hsale
  · exact absurd hsale (by simp)
  · have hs : sale = buildSaleData ⟨runCart actions, notes, paymentMethod⟩ now := by
      simpa using hsale.symm
    subst hs
    simp only [buildSaleData, List.mem_map] at hline
    obtain ⟨item, hi, rfl⟩ := hline
    obtain ⟨h1, h2, h3⟩ := hinv item hi
    simp only
    constructor
    · omega
    · rw [← h3]; exact h2

theorem C2_cart_invariant_witness :
    ∃ item, runCart demoCartActions = [item] ∧
      1 ≤ item.quantity ∧ item.quantity ≤ item.maxQuantity :=
  have hrun : runCart demoCartActions =
      [{ productId := "p1", productName := "Pan", price := 3 / 2, quantity := 1,
         maxQuantity := 3 }] := by
    with_unfolding_all rfl
  ⟨_, hrun,
    (C2_cart_invariant (fun _ => 3) demoCartActions (by
      intro product h
      simp only [demoCartActions, List.mem_cons, CartAction.add.injEq, List.mem_singleton,
        reduceCtorEq, or_false, false_or, or_self, List.not_mem_nil] at h
      subst h
      decide)).1 _ (by rw [hrun]; exact List.mem_singleton_self _)⟩

/-! ### registerSale -/

theorem soldQuantity_nil (id : String) : soldQuantity [] id = 0 := rfl

theorem soldQuantity_cons (item : SaleItem) (items : List SaleItem) (id : String) :
    soldQuantity (item :: items) id =
      (if item.productId = id then item.quantity else 0) + soldQuantity items id := by
  unfold soldQuantity
  by_cases h : item.productId = id
  · simp [List.filter_cons, h]
  · simp [List.filter_cons, h]

theorem soldQuantity_append (xs ys : List SaleItem) (id : String) :
    soldQuantity (xs ++ ys) id = soldQuantity xs id + soldQuantity ys id := by
  simp [soldQuantity, List.filter_append]

theorem soldQuantity_eq_zero (items : List SaleItem) (id : String)
    (h : ∀ item ∈ items, item.productId ≠ id) : soldQuantity items id = 0 := by
  induction items with
  | nil => rfl
  | cons x xs ih =>
    rw [soldQuantity_cons, if_neg (h x (List.mem_cons_self _ _)),
      ih (fun item hi => h item (List.mem_cons_of_mem _ hi))]
    rfl

/-- Products collection after the stock-update loop: a product referenced by
some item loses the sold quantity and gets a new `updatedAt`; every other
document, and every missing document, is as before. -/
theorem foldl_registerSaleItem_products (uid saleId : String) (now : Int)
    (items : List SaleItem) (db : Firestore) (id : String) :
    (items.foldl (registerSaleItem uid saleId now) db).products id =
      (db.products id).map fun doc =>
        if ∃ item ∈ items, item.productId = id then
          { doc with quantity := doc.quantity - soldQuantity items id, updatedAt := now }
        else doc := by
  induction items generalizing db with
  | nil => simp
  | cons x xs ih =>
    rw [List.foldl_cons, ih]
    by_cases hid : x.productId = id
    · subst hid
      cases hdoc : db.products x.productId with
      | none => simp [registerSaleItem, hdoc]
      | some d =>
        simp only [registerSaleItem, hdoc, if_true, Option.map_some', Option.some.injEq,
          List.mem_cons, exists_eq_or_imp, true_or]
        rw [soldQuantity_cons, if_pos rfl]
        by_cases hxs : ∃ item ∈ xs, item.productId = x.productId
        · rw [if_pos hxs]
          simp only [ProductDoc.mk.injEq, and_true, true_and]
          omega
        · rw [if_neg hxs]
          have h0 : soldQuantity xs x.productId = 0 :=
            soldQuantity_eq_zero xs _ (fun item hi hne => hxs ⟨item, hi, hne⟩)
          rw [h0]
          simp
    · have hex : (∃ item ∈ x :: xs, item.productId = id) ↔ ∃ item ∈ xs, item.productId = id := by
        simp [hid]
      have hsold : soldQuantity (x :: xs) id = soldQuantity xs id := by
        rw [soldQuantity_cons, if_neg hid, zero_add]
      have hprod : (registerSaleItem uid saleId now db x).products id = db.products id := by
        unfold registerSaleItem
        cases hdoc : db.products x.productId with
        | none => rfl
        | some d =>
          have : id ≠ x.productId := fun h => hid h.symm
          simp [this]
      rw [hprod, hsold]
      congr 1
      funext doc
      by_cases hxs : ∃ item ∈ xs, item.productId = id
      · rw [if_pos hxs, if_pos (hex.mpr hxs)]
      · rw [if_neg hxs, if_neg (fun h => hxs (hex.mp h))]

theorem registerSale_products (db : Firestore) (uid saleId : String) (now : Int)
    (saleData : SaleData) (id : String) :
    (registerSale db uid saleId now saleData).products id =
      (db.products id).map fun doc =>
        if ∃ item ∈ saleData.items, item.productId = id then
          { doc with quantity := doc.quantity - soldQuantity saleData.items id,
                     updatedAt := now }
        else doc := by
  unfold registerSale
  rw [foldl_registerSaleItem_products]

/-- C3 as stated fails: product p1 has one unit in stock and a sale of two
units of p1 leaves it with quantity -1. -/
theorem C3_stock_nonneg_counterexample :
    StockNonneg demoDb ∧
    (registerSale demoDb "u1" "s1" 5 (demoSale [demoSaleItem "p1" 2])).products "p1" =
      some { demoProductDoc 1 with quantity := -1, updatedAt := 5 } ∧
    ¬ StockNonneg (registerSale demoDb "u1" "s1" 5 (demoSale [demoSaleItem "p1" 2])) := by
  have hp : (registerSale demoDb "u1" "s1" 5 (demoSale [demoSaleItem "p1" 2])).products "p1" =
      some { demoProductDoc 1 with quantity := -1, updatedAt := 5 } := rfl
  refine ⟨?_, hp, ?_⟩
  · intro id doc h
    simp only [demoDb] at h
    split_ifs at h <;> simp at h <;> subst h <;> decide
  · intro h
    exact absurd (h "p1" _ hp) (by decide)

/-- C3 (amended): when every product's quantity is >= 0 and, for every product
of the catalog, the quantities of the sale's items that reference it sum to at
most its quantity, every product's quantity is still >= 0 after registerSale. -/
theorem C3_registerSale_stock_nonneg (db : Firestore) (uid saleId : String) (now : Int)
    (saleData : SaleData)
    (hsale : ∀ id doc, db.products id = some doc → soldQuantity saleData.items id ≤ doc.quantity)
    (hdb : StockNonneg db) :
    StockNonneg (registerSale db uid saleId now saleData) := by
  intro id doc' h
  rw [registerSale_products] at h
  cases hdoc : db.products id with
  | none => simp [hdoc] at h
  | some doc =>
    simp only [hdoc, Option.map_some', Option.some.injEq] at h
    have h1 := hsale id doc hdoc
    have h2 := hdb id doc hdoc
    split_ifs at h
    · subst h
      simp only
      omega
    · subst h
      exact h2

theorem C3_registerSale_stock_nonneg_witness :
    StockNonneg (registerSale demoDb "u1" "s1" 5
      (demoSale [demoSaleItem "p1" 1, demoSaleItem "p2" 1, demoSaleItem "p2" 3])) :=
  C3_registerSale_stock_nonneg demoDb "u1" "s1" 5
    (demoSale [demoSaleItem "p1" 1, demoSaleItem "p2" 1, demoSaleItem "p2" 3])
    (by
      intro id doc h
      simp only [demoDb] at h
      split_ifs at h with h1 h2 <;> simp at h <;> subst h
      · subst h1; decide
      · subst h2; decide)
    (by
      intro id doc h
      simp only [demoDb] at h
      split_ifs at h <;> simp at h <;> subst h <;> decide)

/-- C4: after registerSale a missing product is still missing; an existing
product's quantity is its previous quantity minus the sum of the quantities of
the sale's items that reference it, its other stored fields except updatedAt
are as before, and it is unchanged when no item references it; an item whose
productId is absent from the catalog has no effect on the products: the
result is the one of the sale without that item, so the items after it are
applied. -/
theorem C4_registerSale_effect (db : Firestore) (uid saleId : String) (now : Int)
    (saleData : SaleData) :
    (∀ id, db.products id = none →
      (registerSale db uid saleId now saleData).products id = none) ∧
    (∀ id doc, db.products id = some doc →
      ∃ doc', (registerSale db uid saleId now saleData).products id = some doc' ∧
        doc'.quantity = doc.quantity - soldQuantity saleData.items id ∧
        { doc' with quantity := doc.quantity, updatedAt := doc.updatedAt } = doc ∧
        ((∀ item ∈ saleData.items, item.productId ≠ id) → doc' = doc)) ∧
    (∀ (before after : List SaleItem) (gap : SaleItem),
      saleData.items = before ++ gap :: after → db.products gap.productId = none →
      (registerSale db uid saleId now saleData).products =
        (registerSale db uid saleId now { saleData with items := before ++ after }).products) := by
  refine ⟨?_, ?_, ?_⟩
  · intro id h
    rw [registerSale_products, h]
    rfl
  · intro id doc h
    rw [registerSale_products, h]
    by_cases hex : ∃ item ∈ saleData.items, item.productId = id
    · refine ⟨{ doc with quantity := doc.quantity - soldQuantity saleData.items id,
                         updatedAt := now },
        by rw [Option.map_some', if_pos hex], rfl, rfl, ?_⟩
      intro hno
      obtain ⟨item, hi, hid⟩ := hex
      exact absurd hid (hno item hi)
    · refine ⟨doc, by rw [Option.map_some', if_neg hex], ?_, rfl, fun _ => rfl⟩
      rw [soldQuantity_eq_zero _ _ (fun item hi hid => hex ⟨item, hi, hid⟩)]
      omega
  · intro before after gap hitems hgap
    funext id
    rw [registerSale_products, registerSale_products, hitems]
    cases hdoc : db.products id with
    | none => rfl
    | some doc =>
      have hne : gap.productId ≠ id := by
        intro h
        rw [h, hdoc] at hgap
        exact absurd hgap (by simp)
      have hsold : soldQuantity (before ++ gap :: after) id = soldQuantity (before ++ after) id := by
        rw [soldQuantity_append, soldQuantity_append, soldQuantity_cons, if_neg hne, zero_add]
      have hex : (∃ item ∈ before ++ gap :: after, item.productId = id) ↔
          ∃ item ∈ before ++ after, item.productId = id := by
        constructor
        · rintro ⟨item, hi, hid⟩
          rcases List.mem_append.mp hi with hb | ha
          · exact ⟨item, List.mem_append.mpr (Or.inl hb), hid⟩
          · rcases List.mem_cons.mp ha with hg | ha
            · exact absurd (hg ▸ hid) hne
            · exact ⟨item, List.mem_append.mpr (Or.inr ha), hid⟩
        · rintro ⟨item, hi, hid⟩
          rcases List.mem_append.mp hi with hb | ha
          · exact ⟨item, List.mem_append.mpr (Or.inl hb), hid⟩
          · exact ⟨item, List.mem_append.mpr (Or.inr (List.mem_cons_of_mem _ ha)), hid⟩
      simp only [Option.map_some', hsold]
      by_cases hxs : ∃ item ∈ before ++ after, item.productId = id
      · rw [if_pos hxs, if_pos (hex.mpr hxs)]
      · rw [if_neg hxs, if_neg (fun h => hxs (hex.mp h))]

theorem C4_registerSale_effect_witness :
    (∃ doc', (registerSale demoDb "u1" "s1" 5
        (demoSale [demoSaleItem "p2" 1, demoSaleItem "zz" 9, demoSaleItem "p2" 2])).products "p2"
          = some doc' ∧
      doc'.quantity = 4 - soldQuantity [demoSaleItem "p2" 1, demoSaleItem "zz" 9,
        demoSaleItem "p2" 2] "p2") ∧
    (registerSale demoDb "u1" "s1" 5
        (demoSale [demoSaleItem "p2" 1, demoSaleItem "zz" 9, demoSaleItem "p2" 2])).products =
      (registerSale demoDb "u1" "s1" 5
        (demoSale [demoSaleItem "p2" 1, demoSaleItem "p2" 2])).products :=
  have h := C4_registerSale_effect demoDb "u1" "s1" 5
    (demoSale [demoSaleItem "p2" 1, demoSaleItem "zz" 9, demoSaleItem "p2" 2])
  ⟨match h.2.1 "p2" (demoProductDoc 4) rfl with
    | ⟨doc', h1, h2, _⟩ => ⟨doc', h1, h2⟩,
   h.2.2 [demoSaleItem "p2" 1] [demoSaleItem "p2" 2] (demoSaleItem "zz" 9) rfl rfl⟩

/-! ### Product forms -/

theorem strTruthy_iff (s : String) : strTruthy s = true ↔ s ≠ "" := by
  cases s with
  | mk data =>
    cases data with
    | nil => simp [strTruthy]
    | cons c cs =>
      simp only [strTruthy, List.isEmpty_cons, Bool.not_false, ne_eq, true_iff]
      intro h
      have := congrArg String.data h
      simp at this

theorem passes_positive_check_iff (x : JSNumber) :
    (x.isNaN || x.le (.num 0)) = false ↔ (∃ q : ℚ, x = .num q ∧ 0 < q) ∨ x = .posInf := by
  cases x with
  | nan => simp [JSNumber.isNaN]
  | num q => simp [JSNumber.isNaN, JSNumber.le]
  | posInf => simp [JSNumber.isNaN, JSNumber.le]
  | negInf => simp [JSNumber.isNaN, JSNumber.le]

/-- C5: handleSaveProduct calls addProduct if and only if the trimmed name is
not empty, the price parses to a number > 0, the cost parses to a number > 0
and the quantity parses to an integer >= 0; otherwise nothing is added. -/
theorem C5_handleSaveProduct_validation (form : AddProductForm) :
    (handleSaveProduct form).isSome = true ↔
      (jsTrim form.name ≠ "" ∧
        ((∃ q : ℚ, parseFloat form.price = .num q ∧ 0 < q) ∨
          parseFloat form.price = .posInf) ∧
        ((∃ q : ℚ, parseFloat form.cost = .num q ∧ 0 < q) ∨
          parseFloat form.cost = .posInf) ∧
        ∃ n : Int, parseInt form.quantity = some n ∧ 0 ≤ n) := by
  rw [← strTruthy_iff, ← passes_positive_check_iff, ← passes_positive_check_iff]
  unfold handleSaveProduct
  dsimp only
  generalize parseFloat form.price = priceNumber
  generalize parseFloat form.cost = costNumber
  generalize parseInt form.quantity = quantityNumber
  generalize strTruthy (jsTrim form.name) = nameOk
  generalize (priceNumber.isNaN || priceNumber.le (.num 0)) = priceBad
  generalize (costNumber.isNaN || costNumber.le (.num 0)) = costBad
  cases nameOk <;> cases priceBad <;> cases costBad <;> cases quantityNumber with
  | none => simp
  | some n =>
    by_cases hn : n < 0
    · simp [hn]
    · have hn0 : 0 ≤ n := by omega
      simp [hn, hn0]

/-- C6: on the edited form with price "-5", cost "-1.5" and quantity "-3" (the
name is not empty) handleSave passes a product with price -5, cost -3/2 and
quantity -3 to updateProduct: none of the three is >= 0. -/
theorem C6_handleSave_passes_negative_values :
    handleSave demoNegativeForm =
      some { name := "Pan", sku := "", description := "", category := "",
             price := .num (-5), cost := .num (-3 / 2), quantity := -3, imageUrl := "" } ∧
    (JSNumber.num (-5)).lt (.num 0) = true ∧
    (JSNumber.num (-3 / 2)).lt (.num 0) = true ∧
    (-3 : Int) < 0 := by
  refine ⟨by with_unfolding_all rfl, ?_, ?_, by decide⟩
  · simp [JSNumber.lt]
  · simp [JSNumber.lt]
    norm_num

/-! ### SalesHistoryPage -/

/-- C7 as stated fails: a stored subtotal of 5 on a line of 3 units at price 2
is shown as 5, not as price * quantity = 6. -/
theorem C7_lineAmount_counterexample :
    lineAmount demoInconsistentItem = 5 ∧
    lineAmount demoInconsistentItem ≠
      demoInconsistentItem.price * demoInconsistentItem.quantity := by
  have h : lineAmount demoInconsistentItem = 5 := by
    simp [lineAmount, numOr, demoInconsistentItem]
  refine ⟨h, ?_⟩
  rw [h]
  simp [demoInconsistentItem]
  norm_num

/-- C7 (amended): the line amount shown is the stored subtotal when that is
present and not 0, and price * quantity when the stored subtotal is absent or
0; hence it equals price * quantity whenever the stored subtotal is absent, 0
or equal to price * quantity. -/
theorem C7_lineAmount (item : SaleRecordItem) :
    (∀ s, item.subtotal = some s → s ≠ 0 → lineAmount item = s) ∧
    (item.subtotal = none ∨ item.subtotal = some 0 →
      lineAmount item = item.price * item.quantity) ∧
    (item.subtotal = some (item.price * item.quantity) →
      lineAmount item = item.price * item.quantity) := by
  refine ⟨?_, ?_, ?_⟩
  · intro s hs hne
    simp [lineAmount, numOr, hs, hne]
  · rintro (h | h) <;> simp [lineAmount, numOr, h]
  · intro h
    simp [lineAmount, numOr, h]

theorem C7_lineAmount_witness :
    lineAmount demoItemWithoutSubtotal =
      demoItemWithoutSubtotal.price * demoItemWithoutSubtotal.quantity :=
  (C7_lineAmount demoItemWithoutSubtotal).2.1 (Or.inl rfl)

theorem totalOrZero_eq_getD (sale : SaleRecord) : totalOrZero sale = sale.total.getD 0 := by
  unfold totalOrZero numOr
  cases h : sale.total with
  | none => rfl
  | some v =>
    by_cases hv : v = 0
    · simp [hv]
    · simp [hv]

/-- C9: for every date filter other than 'all' the filtered list holds no sale
without createdAt; for 'all' it is the full list; totalSales is the length of
the filtered list and totalAmount the sum of its totals, a missing total
counting as 0. -/
theorem C9_filteredSales (cal : Calendar) (dateFilter : String) (sales : List SaleRecord) :
    (dateFilter ≠ "all" →
      ∀ sale ∈ filteredSales cal dateFilter sales, sale.createdAt ≠ none) ∧
    filteredSales cal "all" sales = sales ∧
    historyTotalSales cal dateFilter sales = (filteredSales cal dateFilter sales).length ∧
    historyTotalAmount cal dateFilter sales =
      ((filteredSales cal dateFilter sales).map fun sale => sale.total.getD 0).sum := by
  refine ⟨?_, ?_, rfl, ?_⟩
  · intro hne sale hs hnone
    unfold filteredSales at hs
    have hm := (List.mem_filter.mp hs).2
    simp [saleMatchesFilter, hne, hnone] at hm
  · unfold filteredSales
    apply List.filter_eq_self.mpr
    intro sale _
    simp [saleMatchesFilter]
  · unfold historyTotalAmount
    rw [foldl_add_eq_sum_aux, zero_add]
    congr 1
    apply List.map_congr_left
    intro sale _
    exact totalOrZero_eq_getD sale

theorem C9_filteredSales_witness :
    ∃ sale, filteredSales demoCalendar "week"
        [demoSaleRecord none (some 5) none, demoSaleRecord none (some 7) (some 1020)] = [sale] ∧
      sale.createdAt ≠ none :=
  have hrun : filteredSales demoCalendar "week"
      [demoSaleRecord none (some 5) none, demoSaleRecord none (some 7) (some 1020)] =
      [demoSaleRecord none (some 7) (some 1020)] := by
    with_unfolding_all rfl
  ⟨_, hrun,
    (C9_filteredSales demoCalendar "week"
      [demoSaleRecord none (some 5) none, demoSaleRecord none (some 7) (some 1020)]).1
      (by decide) _ (by rw [hrun]; exact List.mem_singleton_self _)⟩

/-! ### ReportsPage -/

theorem addToGroup_counts (method : String) (amount : ℚ) (acc : List (String × PaymentGroup)) :
    ((addToGroup method amount acc).map (·.2.count)).sum = (acc.map (·.2.count)).sum + 1 := by
  induction acc with
  | nil => simp [addToGroup]
  | cons entry rest ih =>
    obtain ⟨key, group⟩ := entry
    unfold addToGroup
    split
    · simp only [List.map_cons, List.sum_cons]
      omega
    · simp only [List.map_cons, List.sum_cons, ih]
      omega

theorem addToGroup_totals (method : String) (amount : ℚ) (acc : List (String × PaymentGroup)) :
    ((addToGroup method amount acc).map (·.2.total)).sum =
      (acc.map (·.2.total)).sum + amount := by
  induction acc with
  | nil => simp [addToGroup]
  | cons entry rest ih =>
    obtain ⟨key, group⟩ := entry
    unfold addToGroup
    split
    · simp only [List.map_cons, List.sum_cons]
      ring
    · simp only [List.map_cons, List.sum_cons, ih]
      ring

theorem paymentReducer_foldl_sums (salesData : List SaleRecord)
    (acc : List (String × PaymentGroup))
    (hkeys : ∀ sale ∈ salesData, paymentMethodOrDefault sale ∉ objectPrototypeKeys) :
    (((salesData.foldl paymentReducer acc).map (·.2.count)).sum =
      (acc.map (·.2.count)).sum + salesData.length) ∧
    (((salesData.foldl paymentReducer acc).map (·.2.total)).sum =
      (acc.map (·.2.total)).sum + (salesData.map totalOrZero).sum) := by
  induction salesData generalizing acc with
  | nil => simp
  | cons sale rest ih =>
    have hsale := hkeys sale (List.mem_cons_self _ _)
    have hstep : paymentReducer acc sale =
        addToGroup (paymentMethodOrDefault sale) (totalOrZero sale) acc := by
      unfold paymentReducer
      simp only [hsale, if_false, ite_self]
    obtain ⟨h1, h2⟩ := ih (paymentReducer acc sale)
      (fun s hs => hkeys s (List.mem_cons_of_mem _ hs))
    rw [List.foldl_cons, h1, h2, hstep, addToGroup_counts, addToGroup_totals]
    constructor
    · simp only [List.length_cons]
      omega
    · simp only [List.map_cons, List.sum_cons]
      ring

/-- The grouping conserves counts and totals whenever no payment-method label
is the name of a member of `Object.prototype`. -/
theorem salesByPaymentMethod_conserves (salesData : List SaleRecord)
    (hkeys : ∀ sale ∈ salesData, paymentMethodOrDefault sale ∉ objectPrototypeKeys) :
    ((salesByPaymentMethod salesData).map (·.2.count)).sum = reportTotalSales salesData ∧
    ((salesByPaymentMethod salesData).map (·.2.total)).sum = totalRevenue salesData := by
  obtain ⟨h1, h2⟩ := paymentReducer_foldl_sums salesData [] hkeys
  unfold salesByPaymentMethod reportTotalSales totalRevenue
  rw [h1, h2, foldl_add_eq_sum_aux]
  simp

/-- C8: a sale whose payment method is the label "constructor" lands in no
group: the groups are empty, their counts sum to 0 while totalSales is 1 and
their totals sum to 0 while totalRevenue is 10. -/
theorem C8_prototype_label_dropped :
    salesByPaymentMethod [demoSaleRecord (some "constructor") (some 10) (some 1020)] = [] ∧
    reportTotalSales [demoSaleRecord (some "constructor") (some 10) (some 1020)] = 1 ∧
    totalRevenue [demoSaleRecord (some "constructor") (some 10) (some 1020)] = 10 := by
  refine ⟨by decide, rfl, ?_⟩
  simp [totalRevenue, totalOrZero, numOr, demoSaleRecord]

/-! ### AnalyticsPage -/

/-- The figure `predictedTotal` is the sum of the totals of all predicted
entries of the series. -/
theorem getTotalPredictions_eq_sum (salesPrediction : List ForecastEntry) :
    getTotalPredictions salesPrediction =
      ((salesPrediction.filter fun item => item.predicted).map (·.total)).sum := by
  unfold getTotalPredictions
  split
  · rename_i h
    rw [List.length_eq_zero.mp h]
    rfl
  · rw [foldl_add_eq_sum_aux, zero_add]

/-- C10: on a series with 30 predicted entries of total 10 each the figure shown
under "Próximos 7 días" is 300, the sum over all 30 predicted entries, while
the first 7 predicted entries sum to 70. -/
theorem C10_predictedTotal_sums_all_predicted :
    (demoForecast.filter fun item => item.predicted).length = 30 ∧
    getTotalPredictions demoForecast = 300 ∧
    next7DaysTotal demoForecast = 70 := by
  refine ⟨by decide, by with_unfolding_all rfl, by with_unfolding_all rfl⟩

/-- C11: for a non-empty series the chart data is the list of points of a
suffix of the historical entries of length min(7, number of historical
entries) followed by a prefix of the predicted entries of length min(7,
number of predicted entries), at most 14 points in all, each point carrying
the entry's total as value and its predicted flag. -/
theorem C11_prediction_chart_data (formatDay : Int → String)
    (salesPrediction : List ForecastEntry) (hne : salesPrediction ≠ []) :
    ∃ historicalData predictedData : List ForecastEntry,
      getSalesPredictionChartData formatDay salesPrediction =
        .points ((historicalData ++ predictedData).map (toChartPoint formatDay)) ∧
      historicalData <:+ salesPrediction.filter (fun item => item.predicted = false) ∧
      historicalData.length =
        min 7 (salesPrediction.filter (fun item => item.predicted = false)).length ∧
      predictedData <+: salesPrediction.filter (fun item => item.predicted = true) ∧
      predictedData.length =
        min 7 (salesPrediction.filter (fun item => item.predicted = true)).length ∧
      (historicalData ++ predictedData).length ≤ 14 ∧
      (∀ item, (toChartPoint formatDay item).value = item.total ∧
        (toChartPoint formatDay item).predicted = item.predicted) := by
  have hfilter : (salesPrediction.filter fun item => !item.predicted) =
      salesPrediction.filter (fun item => item.predicted = false) := by
    congr 1
    funext item
    cases item.predicted <;> rfl
  have hfilter2 : (salesPrediction.filter fun item => item.predicted) =
      salesPrediction.filter (fun item => item.predicted = true) := by
    congr 1
    funext item
    cases item.predicted <;> rfl
  refine ⟨sliceLast 7 (salesPrediction.filter fun item => !item.predicted),
    (salesPrediction.filter fun item => item.predicted).take 7, ?_, ?_, ?_, ?_, ?_, ?_, ?_⟩
  · unfold getSalesPredictionChartData
    rw [if_neg]
    intro h
    exact hne (List.length_eq_zero.mp h)
  · rw [hfilter]
    exact List.drop_suffix _ _
  · rw [hfilter]
    simp only [sliceLast, List.length_drop]
    omega
  · rw [hfilter2]
    exact List.take_prefix _ _
  · rw [hfilter2]
    simp only [List.length_take]
  · simp only [List.length_append, sliceLast, List.length_drop, List.length_take]
    omega
  · intro item
    exact ⟨rfl, rfl⟩

theorem C11_prediction_chart_data_witness :
    ∃ historicalData predictedData : List ForecastEntry,
      getSalesPredictionChartData demoFormatDay demoForecast =
        .points ((historicalData ++ predictedData).map (toChartPoint demoFormatDay)) ∧
      historicalData.length = 7 ∧ predictedData.length = 7 :=
  match C11_prediction_chart_data demoFormatDay demoForecast (by decide) with
  | ⟨historicalData, predictedData, h1, _, h3, _, h5, _⟩ =>
    ⟨historicalData, predictedData, h1, h3.trans (by decide), h5.trans (by decide)⟩

/-! ### ProductDetailPage: stock indicator -/

/-- C12: for the catalog product p0 with quantity 0 the load effect stores the
quantity as the empty string (0 is falsy), `parseInt('')` is NaN and the
detail page shows 'En Stock' with status in, while the product list
classifies the same product as out. -/
theorem C12_zero_stock_shown_in_stock (numberToString : ℚ → String) :
    (loadEffect numberToString [demoProductWithStock "p0" 0] "p0").map (·.quantity) = some "" ∧
    (loadEffect numberToString [demoProductWithStock "p0" 0] "p0").map stockIndicatorText =
      some "En Stock" ∧
    (loadEffect numberToString [demoProductWithStock "p0" 0] "p0").map stockIndicatorStatus =
      some StockStatus.inStock ∧
    stockBadgeStatus (demoProductWithStock "p0" 0) = StockStatus.out := by
  refine ⟨rfl, rfl, rfl, rfl⟩

theorem digitChar_decimal (k : Nat) (hk : k < 10) :
    Nat.digitChar k ∈ decimalDigitChars ∧ (Nat.digitChar k).toNat - 48 = k := by
  interval_cases k <;> exact ⟨by decide, by decide⟩

theorem decimalDigitChars_facts :
    ∀ c ∈ decimalDigitChars, c.isDigit = true ∧ isJSWhitespace c = false ∧
      c ≠ '-' ∧ c ≠ '+' ∧ c ≠ 'x' ∧ c ≠ 'X' := by
  decide

theorem digitsValue_append_singleton (ds : List Char) (d : Char) :
    digitsValue (ds ++ [d]) = digitsValue ds * 10 + (d.toNat - 48) := by
  simp [digitsValue, List.foldl_append]

theorem toDigitsCore_decimal (fuel n : Nat) (ds : List Char) (hfuel : n < fuel) :
    ∃ digits, Nat.toDigitsCore 10 fuel n ds = digits ++ ds ∧ digits ≠ [] ∧
      (∀ c ∈ digits, c ∈ decimalDigitChars) ∧ digitsValue digits = n := by
  induction fuel generalizing n ds with
  | zero => omega
  | succ fuel ih =>
    have hmod := digitChar_decimal (n % 10) (Nat.mod_lt _ (by decide))
    unfold Nat.toDigitsCore
    dsimp only
    by_cases hdiv : n / 10 = 0
    · rw [if_pos hdiv]
      refine ⟨[Nat.digitChar (n % 10)], rfl, by simp, ?_, ?_⟩
      · intro c hc
        rw [List.mem_singleton.mp hc]
        exact hmod.1
      · have : digitsValue [Nat.digitChar (n % 10)] = (Nat.digitChar (n % 10)).toNat - 48 := by
          simp [digitsValue]
        rw [this, hmod.2]
        omega
    · rw [if_neg hdiv]
      obtain ⟨digits, h1, _, h3, h4⟩ := ih (n / 10) (Nat.digitChar (n % 10) :: ds) (by omega)
      refine ⟨digits ++ [Nat.digitChar (n % 10)], by rw [h1]; simp, by simp, ?_, ?_⟩
      · intro c hc
        rcases List.mem_append.mp hc with h | h
        · exact h3 c h
        · rw [List.mem_singleton.mp h]
          exact hmod.1
      · rw [digitsValue_append_singleton, h4, hmod.2]
        omega

theorem takeWhile_isDigit_decimal (digits : List Char)
    (h : ∀ c ∈ digits, c ∈ decimalDigitChars) : digits.takeWhile Char.isDigit = digits := by
  apply List.takeWhile_eq_self_iff.mpr
  intro c hc
  exact (decimalDigitChars_facts c (h c hc)).1

theorem parseUnsignedInt_decimal (digits : List Char) (hne : digits ≠ [])
    (h : ∀ c ∈ digits, c ∈ decimalDigitChars) :
    parseUnsignedInt digits = some (digitsValue digits) := by
  have htake := takeWhile_isDigit_decimal digits h
  unfold parseUnsignedInt
  split
  · rename_i x rest
    have hx := decimalDigitChars_facts x (h x (by simp))
    rw [if_neg (by
      rintro (hx' | hx')
      · exact hx.2.2.2.2.1 hx'
      · exact hx.2.2.2.2.2 hx')]
    rw [htake]
  · rw [htake]
    cases digits with
    | nil => exact absurd rfl hne
    | cons c cs => simp

theorem parseInt_natRepr (n : Nat) : parseInt (Nat.repr n) = some (n : Int) := by
  obtain ⟨digits, h1, h2, h3, h4⟩ := toDigitsCore_decimal (n + 1) n [] (by omega)
  rw [List.append_nil] at h1
  have hdata : (Nat.repr n).data = digits := by
    unfold Nat.repr Nat.toDigits
    rw [h1]
    rfl
  cases hd : digits with
  | nil => exact absurd hd h2
  | cons c cs =>
    have hc := decimalDigitChars_facts c (h3 c (by rw [hd]; simp))
    have htrim : trimStartChars (c :: cs) = c :: cs := by
      simp [trimStartChars, List.dropWhile, hc.2.1]
    unfold parseInt
    rw [hdata, hd, htrim]
    split
    · rename_i heq
      simp only [List.cons.injEq] at heq
      exact absurd heq.1 hc.2.2.1
    · rename_i heq
      simp only [List.cons.injEq] at heq
      exact absurd heq.1 hc.2.2.2.1
    · rw [← hd, parseUnsignedInt_decimal digits h2 h3, h4]
      rfl

theorem parseInt_toString (q : Int) : parseInt (toString q) = some q := by
  cases q with
  | ofNat m => exact parseInt_natRepr m
  | negSucc m =>
    obtain ⟨digits, h1, h2, h3, h4⟩ := toDigitsCore_decimal (m + 1 + 1) (m + 1) [] (by omega)
    rw [List.append_nil] at h1
    have hdata : (toString (Int.negSucc m)).data = '-' :: digits := by
      show ("-" ++ Nat.repr (m + 1)).data = _
      rw [String.data_append]
      unfold Nat.repr Nat.toDigits
      rw [h1]
      rfl
    have htrim : trimStartChars ('-' :: digits) = '-' :: digits := by
      simp [trimStartChars, List.dropWhile, isJSWhitespace]
    unfold parseInt
    rw [hdata, htrim]
    simp only [parseUnsignedInt_decimal digits h2 h3, h4, Option.map_some']
    rfl

/-- For a product whose quantity is not 0 the detail page, after the load
effect, classifies the stock as the product list does and shows 'Agotado'
for a quantity <= 0, 'Stock Bajo' for 1 to 5 and 'En Stock' above 5. -/
theorem stockIndicator_agrees_of_nonzero (numberToString : ℚ → String)
    (imageUrl : Option String) (product : Product) (hq : product.quantity ≠ 0) :
    stockIndicatorStatus (loadProductForm numberToString imageUrl product) =
      stockBadgeStatus product ∧
    stockIndicatorText (loadProductForm numberToString imageUrl product) =
      (if product.quantity ≤ 0 then "Agotado"
       else if product.quantity ≤ 5 then "Stock Bajo" else "En Stock") := by
  have hparse : parseInt (loadProductForm numberToString imageUrl product).quantity =
      some product.quantity := by
    simp only [loadProductForm, intToStringOrEmpty, hq, ne_eq, not_false_eq_true, if_true]
    exact parseInt_toString product.quantity
  unfold stockIndicatorStatus stockIndicatorText stockBadgeStatus
  rw [hparse]
  simp only [parsedLe, decide_eq_true_eq]
  trivial

/-! ### ProductList -/

theorem jsSort_perm {α : Type} (compare : α → α → ℚ) (l : List α) :
    (jsSort compare l).Perm l :=
  List.perm_insertionSort _ l

theorem includes_empty_field (query : String) (hq : query ≠ "") : includes "" query = false := by
  unfold includes
  simp only [decide_eq_false_iff_not]
  intro h
  have hnil : query.data = [] := List.infix_nil.mp h
  apply hq
  cases query with
  | mk data =>
    simp only at hnil
    subst hnil
    rfl

theorem truthy_and_includes (ops : TextOps)
    (hlower : ∀ s, ops.toLowerCase s = "" ↔ s = "") (value searchText : String)
    (hq : searchText ≠ "") :
    (strTruthy value && includes (ops.toLowerCase value) (ops.toLowerCase searchText)) =
      includes (ops.toLowerCase value) (ops.toLowerCase searchText) := by
  by_cases hv : value = ""
  · subst hv
    have h1 : ops.toLowerCase "" = "" := (hlower "").mpr rfl
    have h2 : ops.toLowerCase searchText ≠ "" := fun h => hq ((hlower searchText).mp h)
    rw [h1, includes_empty_field _ h2]
    simp
  · rw [(strTruthy_iff value).mpr hv]
    simp

theorem matchesQuery_eq_contains (ops : TextOps)
    (hlower : ∀ s, ops.toLowerCase s = "" ↔ s = "") (searchText : String)
    (hq : searchText ≠ "") (product : Product) :
    matchesQuery ops (ops.toLowerCase searchText) product =
      (containsIgnoringCase ops (some product.name) searchText ||
        containsIgnoringCase ops product.sku searchText ||
        containsIgnoringCase ops product.description searchText) := by
  unfold matchesQuery containsIgnoringCase
  rw [truthy_and_includes ops hlower _ _ hq]
  cases product.sku <;> cases product.description <;>
    simp only [truthy_and_includes ops hlower _ _ hq]

/-- C13: the list ProductList displays is a permutation of the products that
belong to the selected category (all products for 'Todos') and, when the
search text is not empty, whose name, sku or description contains the search
text ignoring case; so every such product appears as often as in the product
list (once when the list has no duplicates), no other product appears, and
sorting only reorders the filtered products. -/
theorem C13_displayed_products (ops : TextOps)
    (hlower : ∀ s, ops.toLowerCase s = "" ↔ s = "") (products : List Product)
    (searchQuery selectedCategory : String) (sortConfig : SortConfig) :
    (filterAndSort ops products searchQuery selectedCategory sortConfig).Perm
      (products.filter (shouldDisplay ops searchQuery selectedCategory)) ∧
    (∀ product, product ∈ filterAndSort ops products searchQuery selectedCategory sortConfig ↔
      product ∈ products ∧ shouldDisplay ops searchQuery selectedCategory product = true) ∧
    (products.Nodup →
      (filterAndSort ops products searchQuery selectedCategory sortConfig).Nodup) ∧
    (filterAndSort ops products searchQuery selectedCategory sortConfig).Perm
      (filterAndSort ops products searchQuery selectedCategory ⟨"", sortConfig.direction⟩) := by
  have hunsorted : filterAndSort ops products searchQuery selectedCategory
        ⟨"", sortConfig.direction⟩ =
      products.filter (shouldDisplay ops searchQuery selectedCategory) := by
    unfold filterAndSort
    have hkey : strTruthy "" = false := rfl
    simp only [hkey, Bool.false_eq_true, if_false]
    by_cases hcat : selectedCategory = "Todos"
    · by_cases hq : searchQuery = ""
      · subst hq
        have hq0 : strTruthy "" = false := rfl
        simp only [hcat, ne_eq, not_true_eq_false, if_false, hq0, Bool.false_eq_true]
        symm
        apply List.filter_eq_self.mpr
        intro a _
        simp [shouldDisplay]
      · simp only [hcat, ne_eq, not_true_eq_false, if_false, (strTruthy_iff _).mpr hq, if_true]
        apply List.filter_congr
        intro a _
        rw [matchesQuery_eq_contains ops hlower _ hq]
        simp [shouldDisplay, hq]
    · by_cases hq : searchQuery = ""
      · subst hq
        have hq0 : strTruthy "" = false := rfl
        simp only [ne_eq, hcat, not_false_eq_true, if_true, hq0, Bool.false_eq_true, if_false]
        apply List.filter_congr
        intro a _
        simp [shouldDisplay, hcat]
      · simp only [ne_eq, hcat, not_false_eq_true, if_true, (strTruthy_iff _).mpr hq,
          List.filter_filter]
        apply List.filter_congr
        intro a _
        rw [matchesQuery_eq_contains ops hlower _ hq]
        simp [shouldDisplay, hq, hcat, Bool.and_comm]
  have hsorted : (filterAndSort ops products searchQuery selectedCategory sortConfig).Perm
      (filterAndSort ops products searchQuery selectedCategory ⟨"", sortConfig.direction⟩) := by
    unfold filterAndSort
    have hkey : strTruthy "" = false := rfl
    simp only [hkey, Bool.false_eq_true, if_false]
    split
    · exact jsSort_perm _ _
    · exact List.Perm.refl _
  have hperm := hunsorted ▸ hsorted
  refine ⟨hperm, ?_, ?_, hsorted⟩
  · intro product
    rw [hperm.mem_iff, List.mem_filter]
  · intro hnodup
    exact hperm.nodup_iff.mpr (hnodup.filter _)

theorem asciiTextOps_toLowerCase_empty (s : String) :
    asciiTextOps.toLowerCase s = "" ↔ s = "" := by
  cases s with
  | mk data =>
    cases data with
    | nil => exact ⟨fun _ => rfl, fun _ => rfl⟩
    | cons c cs =>
      constructor
      · intro h
        have := congrArg String.data h
        simp [asciiTextOps] at this
      · intro h
        have := congrArg String.data h
        simp at this

theorem C13_displayed_products_witness :
    (filterAndSort asciiTextOps demoCatalog "PAN" "Todos" ⟨"name", "asc"⟩).Perm
      (demoCatalog.filter (shouldDisplay asciiTextOps "PAN" "Todos")) :=
  (C13_displayed_products asciiTextOps asciiTextOps_toLowerCase_empty demoCatalog "PAN" "Todos"
    ⟨"name", "asc"⟩).1

/-! ### SalesPage: quantity update and checkout -/

/-- C14: for an in-range index, updateItemQuantity leaves the cart unchanged
when newQuantity exceeds the item's maxQuantity; otherwise, when
newQuantity <= 0, it removes exactly the item at index (the items before and
after keep their order); otherwise the cart keeps its length, the item at
index gets quantity newQuantity with its other fields unchanged, and every
other item is unchanged. -/
theorem C14_updateItemQuantity (cartItems : List CartItem) (index : Nat) (newQuantity : Int)
    (hindex : index < cartItems.length) :
    ∃ item updated, cartItems.get? index = some item ∧
      updateItemQuantity cartItems index newQuantity = some updated ∧
      (newQuantity > item.maxQuantity → updated = cartItems) ∧
      (¬ newQuantity > item.maxQuantity → newQuantity ≤ 0 →
        updated = cartItems.take index ++ cartItems.drop (index + 1)) ∧
      (¬ newQuantity > item.maxQuantity → ¬ newQuantity ≤ 0 →
        updated.length = cartItems.length ∧
        updated.get? index = some { item with quantity := newQuantity } ∧
        ∀ j, j ≠ index → updated.get? j = cartItems.get? j) := by
  obtain ⟨item, hitem⟩ : ∃ item, cartItems.get? index = some item :=
    ⟨cartItems.get ⟨index, hindex⟩, List.get?_eq_get hindex⟩
  unfold updateItemQuantity
  rw [hitem]
  dsimp only
  by_cases hmax : newQuantity > item.maxQuantity
  · refine ⟨item, cartItems, rfl, by rw [if_pos hmax], fun _ => rfl,
      fun h => absurd hmax h, fun h => absurd hmax h⟩
  · by_cases hzero : newQuantity ≤ 0
    · refine ⟨item, removeFromCart cartItems index, rfl, by rw [if_neg hmax, if_pos hzero],
        fun h => absurd h hmax, fun _ _ => ?_, fun _ h => absurd hzero h⟩
      unfold removeFromCart
      exact List.eraseIdx_eq_take_drop_succ cartItems index
    · refine ⟨item, cartItems.set index { item with quantity := newQuantity }, rfl,
        by rw [if_neg hmax, if_neg hzero], fun h => absurd h hmax,
        fun _ h => absurd h hzero, fun _ _ => ⟨?_, ?_, ?_⟩⟩
      · exact List.length_set _ _ _
      · rw [List.get?_eq_getElem?, List.getElem?_set_self hindex]
      · intro j hj
        rw [List.get?_eq_getElem?, List.get?_eq_getElem?, List.getElem?_set_ne (Ne.symm hj)]

theorem C14_updateItemQuantity_witness :
    ∃ item updated, demoSalesPageState.cartItems.get? 0 = some item ∧
      updateItemQuantity demoSalesPageState.cartItems 0 4 = some updated ∧
      updated.get? 0 = some { item with quantity := 4 } := by
  obtain ⟨item, updated, h1, h2, _, _, h5⟩ :=
    C14_updateItemQuantity demoSalesPageState.cartItems 0 4 (by decide)
  have hitem : item.maxQuantity = 5 := by
    have h : demoSalesPageState.cartItems.get? 0 =
        some ⟨"p1", "Pan", 3 / 2, 2, 5⟩ := rfl
    rw [h] at h1
    rw [← Option.some.inj h1]
  exact ⟨item, updated, h1, h2, (h5 (by rw [hitem]; decide) (by decide)).2.1⟩

/-- C15: handleCheckout calls registerSale exactly when the cart is not empty,
with the payload of the cart; with an empty cart it makes no call and leaves
the state unchanged; when the call fails the state is unchanged; when it
succeeds the cart is empty, the notes are '' and the payment method is
'Efectivo'; so the cart goes from non-empty to the cleared state if and only
if registerSale was called and succeeded. -/
theorem C15_handleCheckout (registerSaleSucceeds : SaleData → Bool) (st : SalesPageState)
    (now : Int) :
    (handleCheckout registerSaleSucceeds st now).registerSaleCall = checkoutPayload st now ∧
    (st.cartItems = [] →
      (handleCheckout registerSaleSucceeds st now).registerSaleCall = none ∧
      (handleCheckout registerSaleSucceeds st now).state = st) ∧
    (∀ saleData, (handleCheckout registerSaleSucceeds st now).registerSaleCall = some saleData →
      registerSaleSucceeds saleData = false →
      (handleCheckout registerSaleSucceeds st now).state = st) ∧
    (∀ saleData, (handleCheckout registerSaleSucceeds st now).registerSaleCall = some saleData →
      registerSaleSucceeds saleData = true →
      (handleCheckout registerSaleSucceeds st now).state = clearedSalesPageState) ∧
    ((st.cartItems ≠ [] ∧
        (handleCheckout registerSaleSucceeds st now).state = clearedSalesPageState) ↔
      ∃ saleData, (handleCheckout registerSaleSucceeds st now).registerSaleCall = some saleData ∧
        registerSaleSucceeds saleData = true) := by
  unfold handleCheckout checkoutPayload
  by_cases hcart : st.cartItems = []
  · have hlen : st.cartItems.length = 0 := by rw [hcart]; rfl
    simp [hlen, hcart]
  · have hlen : ¬ st.cartItems.length = 0 := fun h => hcart (List.length_eq_zero.mp h)
    cases hreg : registerSaleSucceeds (buildSaleData st now) with
    | true => simp [hlen, hcart, hreg]
    | false =>
      simp [hlen, hcart, hreg]
      intro h
      exact hcart (congrArg SalesPageState.cartItems h)

theorem C15_handleCheckout_witness :
    (handleCheckout (fun _ => false) demoSalesPageState 0).state = demoSalesPageState ∧
    (handleCheckout (fun _ => true) demoSalesPageState 0).state = clearedSalesPageState :=
  ⟨(C15_handleCheckout (fun _ => false) demoSalesPageState 0).2.2.1
      (buildSaleData demoSalesPageState 0) rfl rfl,
   (C15_handleCheckout (fun _ => true) demoSalesPageState 0).2.2.2.1
      (buildSaleData demoSalesPageState 0) rfl rfl⟩

/-! ### AddProductPage: new category and product data -/

/-- C16: with the existing category 'Bebidas' and the entered name ' Bebidas'
the duplicate check compares the untrimmed entry and finds nothing, and
addCategory is called with the trimmed name 'Bebidas', the name of the
existing category. -/
theorem C16_addNewCategory_stores_existing_name :
    addNewCategory asciiTextOps [{ id := "c1", name := "Bebidas" }] " Bebidas" =
      some "Bebidas" ∧
    asciiTextOps.toLowerCase "Bebidas" = asciiTextOps.toLowerCase (jsTrim " Bebidas") := by
  refine ⟨by decide, by decide⟩

/-- The two early returns of addNewCategory: a blank entry, and an entry that
equals an existing name ignoring case, never reach addCategory. -/
theorem addNewCategory_not_called (ops : TextOps) (categories : List Category)
    (categorySearch : String) :
    (jsTrim categorySearch = "" → addNewCategory ops categories categorySearch = none) ∧
    ((∃ cat ∈ categories, ops.toLowerCase cat.name = ops.toLowerCase categorySearch) →
      addNewCategory ops categories categorySearch = none) := by
  unfold addNewCategory
  constructor
  · intro h
    rw [if_pos h]
  · rintro ⟨cat, hc, heq⟩
    split
    · rfl
    · have : (categories.any fun cat =>
          decide (ops.toLowerCase cat.name = ops.toLowerCase categorySearch)) = true :=
        List.any_eq_true.mpr ⟨cat, hc, by simpa using heq⟩
      simp only [this, if_true]

/-- C17: when handleSaveProduct passes validation, the product given to
addProduct has category 'Sin categoría' when the entered category is blank and
the trimmed category otherwise, sku null when the sku is blank, description
null when blank, and price, cost and quantity equal to the parsed numbers. -/
theorem C17_productData_fields (form : AddProductForm) (productData : ProductData)
    (image : Option String) (hsave : handleSaveProduct form = some (productData, image)) :
    (jsTrim form.category = "" → productData.category = "Sin categoría") ∧
    (jsTrim form.category ≠ "" → productData.category = jsTrim form.category) ∧
    (jsTrim form.sku = "" → productData.sku = none) ∧
    (jsTrim form.description = "" → productData.description = none) ∧
    productData.price = parseFloat form.price ∧
    productData.cost = parseFloat form.cost ∧
    parseInt form.quantity = some productData.quantity := by
  unfold handleSaveProduct at hsave
  dsimp only at hsave
  split at hsave
  · exact absurd hsave (by simp)
  split at hsave
  · exact absurd hsave (by simp)
  split at hsave
  · exact absurd hsave (by simp)
  split at hsave
  · exact absurd hsave (by simp)
  rename_i quantityNumber hquantity
  split at hsave
  · exact absurd hsave (by simp)
  simp only [Option.some.injEq, Prod.mk.injEq] at hsave
  obtain ⟨hdata, _⟩ := hsave
  subst hdata
  refine ⟨?_, ?_, ?_, ?_, rfl, rfl, hquantity⟩
  · intro h
    have : strTruthy (jsTrim form.category) = false := by rw [h]; rfl
    simp [categoryOrDefault, this]
  · intro h
    simp [categoryOrDefault, (strTruthy_iff _).mpr h]
  · intro h
    have : strTruthy (jsTrim form.sku) = false := by rw [h]; rfl
    simp [trimOrNull, this]
  · intro h
    have : strTruthy (jsTrim form.description) = false := by rw [h]; rfl
    simp [trimOrNull, this]

theorem C17_productData_fields_witness :
    ∃ productData image, handleSaveProduct demoAddProductForm = some (productData, image) ∧
      productData.category = "Panadería" ∧ productData.sku = none := by
  have hsave : handleSaveProduct demoAddProductForm =
      some ({ name := " Pan integral ", sku := none, description := none,
              category := "Panadería", price := .num (5 / 2), cost := .num (6 / 5),
              quantity := 12 }, none) := by
    with_unfolding_all rfl
  have h := C17_productData_fields demoAddProductForm _ _ hsave
  exact ⟨_, _, hsave, h.2.1 (by decide), h.2.2.1 (by decide)⟩

/-! ### PrivateRoute -/

/-- C18: PrivateRoute renders the protected component exactly when loading
is finished and a user is present; while loading it renders the loading
indicator; when loading is finished without a user it renders the redirect
to /login and not the component. -/
theorem C18_privateRoute {Component : Type} (auth : AuthState) (component : Component) :
    (PrivateRoute auth component = .appLayout component ↔
      auth.loading = false ∧ auth.user.isSome = true) ∧
    (auth.loading = true → PrivateRoute auth component = .loadingIndicator) ∧
    (auth.loading = false → auth.user = none →
      PrivateRoute auth component = .navigate "/login" true ∧
      ∀ other : Component, PrivateRoute auth component ≠ .appLayout other) := by
  obtain ⟨user, loading⟩ := auth
  cases loading <;> cases user <;> simp [PrivateRoute]

theorem C18_privateRoute_witness :
    PrivateRoute { user := none, loading := false } "InventoryPage" =
      RouteView.navigate "/login" true :=
  ((C18_privateRoute { user := none, loading := false } "InventoryPage").2.2 rfl rfl).1

/-! ### Sales analytics engine -/

theorem foldl_min_le (days : List Int) (day : Int) :
    days.foldl min day ≤ day ∧ ∀ d ∈ days, days.foldl min day ≤ d := by
  induction days generalizing day with
  | nil => exact ⟨le_refl _, fun _ h => absurd h (List.not_mem_nil _)⟩
  | cons x xs ih =>
    obtain ⟨h1, h2⟩ := ih (min day x)
    refine ⟨le_trans h1 (min_le_left _ _), ?_⟩
    intro d hd
    rcases List.mem_cons.mp hd with h | h
    · subst h
      exact le_trans h1 (min_le_right _ _)
    · exact h2 d h

theorem earliestDay_le (days : List Int) (d : Int) (hd : d ∈ days) :
    ∃ first, earliestDay days = some first ∧ first ≤ d := by
  cases days with
  | nil => exact absurd hd (List.not_mem_nil _)
  | cons x xs =>
    refine ⟨xs.foldl min x, rfl, ?_⟩
    rcases List.mem_cons.mp hd with h | h
    · subst h
      exact (foldl_min_le xs d).1
    · exact (foldl_min_le xs x).2 d h

theorem denseSeries_historical (dayOf : Int → Int) (today : Int) (sales : List SaleRecord) :
    ∀ entry ∈ denseSeries dayOf today sales, entry.predicted = false ∧ entry.date ≤ today := by
  intro entry he
  unfold denseSeries at he
  split at he
  · exact absurd he (List.not_mem_nil _)
  · rename_i first _
    simp only [List.mem_map, List.mem_range] at he
    obtain ⟨i, hi, rfl⟩ := he
    refine ⟨rfl, ?_⟩
    simp only
    omega

theorem denseSeries_dates_increasing (dayOf : Int → Int) (today : Int)
    (sales : List SaleRecord) :
    ((denseSeries dayOf today sales).map (·.date)).Pairwise (· < ·) := by
  unfold denseSeries
  split
  · exact List.Pairwise.nil
  · rename_i first _
    rw [List.map_map, List.pairwise_map]
    refine List.Pairwise.imp ?_ (List.pairwise_lt_range _)
    intro a b hab
    simp only [Function.comp_apply]
    omega

theorem denseSeries_length_of_earlier_sale (dayOf : Int → Int) (today : Int)
    (sales : List SaleRecord)
    (hhist : ∃ sale ∈ sales, ∃ t, sale.createdAt = some t ∧ dayOf t < today) :
    2 ≤ (denseSeries dayOf today sales).length := by
  obtain ⟨sale, hs, t, ht, hlt⟩ := hhist
  have hmem : dayOf t ∈ saleDays dayOf sales := by
    unfold saleDays
    exact List.mem_filterMap.mpr ⟨sale, hs, by rw [ht]; rfl⟩
  obtain ⟨first, hfirst, hle⟩ := earliestDay_le _ _ hmem
  unfold denseSeries
  rw [hfirst]
  simp only [List.length_map, List.length_range]
  omega

/-- C19 as stated fails on the forecast of the spec: for the non-empty sales
list holding one sale of today the daily series has a single day, the
predicted tail is empty and the result holds 0 entries with predicted = true,
not 30. -/
theorem C19_forecast_counterexample :
    [demoEngineSale 10 "p1" 3] ≠ [] ∧
    forecast demoDayOf 10 [demoEngineSale 10 "p1" 3] 30 =
      .ok [{ date := 10, total := 30, predicted := false }] ∧
    (([{ date := 10, total := 30, predicted := false }] : List ForecastEntry).filter
      fun entry => entry.predicted).length ≠ 30 := by
  refine ⟨by simp, by with_unfolding_all rfl, by decide⟩

/-- C19 (amended): for a horizon h > 0, when some sale is dated before today
(the daily series from the earliest sale to today has at least 2 days) the
forecast is the historical series followed by exactly h entries with
predicted = true, the historical entries all have predicted = false and the
dates of the whole result increase strictly; when the daily series has fewer
than 2 days the forecast is the historical series alone, without any
predicted entry. -/
theorem C19_forecast_predicted_tail (dayOf : Int → Int) (today : Int)
    (sales : List SaleRecord) (horizonDays : Int) (hh : 0 < horizonDays) :
    ((∃ sale ∈ sales, ∃ t, sale.createdAt = some t ∧ dayOf t < today) →
      ∃ predictedTail,
        forecast dayOf today sales horizonDays =
          .ok (denseSeries dayOf today sales ++ predictedTail) ∧
        (∀ entry ∈ denseSeries dayOf today sales, entry.predicted = false) ∧
        (∀ entry ∈ predictedTail, entry.predicted = true) ∧
        (predictedTail.length : Int) = horizonDays ∧
        ((denseSeries dayOf today sales ++ predictedTail).map (·.date)).Pairwise (· < ·)) ∧
    ((denseSeries dayOf today sales).length < 2 →
      forecast dayOf today sales horizonDays = .ok (denseSeries dayOf today sales) ∧
      ∀ entry ∈ denseSeries dayOf today sales, entry.predicted = false) := by
  have hnot : ¬ horizonDays ≤ 0 := by omega
  constructor
  · intro hhist
    have hlen := denseSeries_length_of_earlier_sale dayOf today sales hhist
    have hnlt : ¬ (denseSeries dayOf today sales).length < 2 := by omega
    refine ⟨(List.range horizonDays.toNat).map fun (i : Nat) =>
        { date := today + ((i : Int) + 1)
          total := max 0 (((movingAverage ((denseSeries dayOf today sales).map
            (·.total))).getLast?.getD 0) +
            trendSlope (movingAverage ((denseSeries dayOf today sales).map (·.total))) *
              ((i : ℚ) + 1))
          predicted := true },
      ?_, fun entry he => (denseSeries_historical dayOf today sales entry he).1, ?_, ?_, ?_⟩
    · unfold forecast
      rw [if_neg hnot]
      dsimp only
      rw [if_neg hnlt]
    · intro entry he
      simp only [List.mem_map] at he
      obtain ⟨i, _, rfl⟩ := he
      rfl
    · simp only [List.length_map, List.length_range]
      omega
    · rw [List.map_append, List.pairwise_append]
      refine ⟨denseSeries_dates_increasing dayOf today sales, ?_, ?_⟩
      · rw [List.map_map, List.pairwise_map]
        refine List.Pairwise.imp ?_ (List.pairwise_lt_range _)
        intro a b hab
        simp only [Function.comp_apply]
        omega
      · intro a ha b hb
        simp only [List.mem_map] at ha hb
        obtain ⟨entry, he, rfl⟩ := ha
        obtain ⟨entry', ⟨i, _, rfl⟩, rfl⟩ := hb
        have := (denseSeries_historical dayOf today sales entry he).2
        simp only
        omega
  · intro hlt
    refine ⟨?_, fun entry he => (denseSeries_historical dayOf today sales entry he).1⟩
    unfold forecast
    rw [if_neg hnot]
    dsimp only
    rw [if_pos hlt]

theorem C19_forecast_predicted_tail_witness :
    ∃ predictedTail,
      forecast demoDayOf 10 [demoEngineSale 8 "p1" 3, demoEngineSale 10 "p1" 5] 30 =
        .ok (denseSeries demoDayOf 10 [demoEngineSale 8 "p1" 3, demoEngineSale 10 "p1" 5] ++
          predictedTail) ∧
      (predictedTail.length : Int) = 30 :=
  match (C19_forecast_predicted_tail demoDayOf 10
      [demoEngineSale 8 "p1" 3, demoEngineSale 10 "p1" 5] 30 (by decide)).1
      ⟨demoEngineSale 8 "p1" 3, List.mem_cons_self _ _, 800, rfl, by decide⟩ with
  | ⟨predictedTail, h1, _, _, h4, _⟩ => ⟨predictedTail, h1, h4⟩

theorem restockItem?_spec (windowDays thresholdDays : Int) (window : List SaleRecord)
    (product : Product) (item : RestockItem)
    (h : restockItem? windowDays thresholdDays window product = some item) :
    item.productId = product.id ∧ item.quantity = product.quantity ∧
    item.dailySalesRate ≠ 0 ∧
    (product.quantity ≤ 0 → item.daysUntilOutOfStock = 0) := by
  unfold restockItem? at h
  dsimp only at h
  by_cases hrate : (totalSold window product.id : ℚ) / (windowDays : ℚ) = 0
  · rw [if_pos hrate] at h
    exact absurd h (by simp)
  · rw [if_neg hrate] at h
    by_cases hq : product.quantity ≤ 0
    · simp only [hq, if_true] at h
      by_cases hth : (0 : ℚ) ≤ (thresholdDays : ℚ)
      · rw [if_pos hth] at h
        have hitem := Option.some.inj h
        subst hitem
        exact ⟨rfl, rfl, hrate, fun _ => rfl⟩
      · rw [if_neg hth] at h
        exact absurd h (by simp)
    · simp only [hq, if_false] at h
      split at h
      · have hitem := Option.some.inj h
        subst hitem
        exact ⟨rfl, rfl, hrate, fun hq' => absurd hq' hq⟩
      · exact absurd h (by simp)

/-- C20: for a positive threshold and window recommend returns a list, and every
RestockItem of it stems from a product of the catalog, carries that product's
quantity, and has daysUntilOutOfStock = 0 whenever that quantity is <= 0, for
which the restock tab shows 'Agotado'. -/
theorem C20_out_of_stock_days_zero (numberToString : ℚ → String) (dayOf : Int → Int)
    (today windowDays : Int) (products : List Product) (sales : List SaleRecord)
    (thresholdDays : Int) :
    (0 < thresholdDays → 0 < windowDays →
      ∃ items, recommend dayOf today windowDays products sales thresholdDays = .ok items) ∧
    ∀ items, recommend dayOf today windowDays products sales thresholdDays = .ok items →
      ∀ item ∈ items,
        (∃ product ∈ products, item.productId = product.id ∧
          item.quantity = product.quantity) ∧
        (item.quantity ≤ 0 →
          item.daysUntilOutOfStock = 0 ∧ restockDaysLabel numberToString item = "Agotado") := by
  constructor
  · intro ht hw
    unfold recommend
    rw [if_neg (by omega)]
    exact ⟨_, rfl⟩
  · intro items hres item hitem
    unfold recommend at hres
    split at hres
    · exact absurd hres (by simp)
    · simp only [Except.ok.injEq] at hres
      subst hres
      have hmem := (List.perm_insertionSort restockBefore _).mem_iff.mp hitem
      obtain ⟨product, hp, hsome⟩ := List.mem_filterMap.mp hmem
      obtain ⟨h1, h2, _, h4⟩ := restockItem?_spec _ _ _ _ _ hsome
      refine ⟨⟨product, hp, h1, h2⟩, ?_⟩
      intro hq
      have hdays : item.daysUntilOutOfStock = 0 := h4 (by rw [← h2]; exact hq)
      refine ⟨hdays, ?_⟩
      unfold restockDaysLabel
      rw [if_pos (by rw [hdays])]

theorem C20_out_of_stock_days_zero_witness :
    ∃ item rest,
      recommend demoDayOf 14 14 demoRestockProducts demoRestockSales 14 = .ok (item :: rest) ∧
      item.productId = "p2" ∧ item.quantity ≤ 0 ∧ item.daysUntilOutOfStock = 0 ∧
      restockDaysLabel (fun _ => "5") item = "Agotado" := by
  have hres : recommend demoDayOf 14 14 demoRestockProducts demoRestockSales 14 =
      .ok [{ productId := "p2", name := "Pan", sku := some "PAN-1", quantity := 0,
             dailySalesRate := 1 / 14, daysUntilOutOfStock := 0, recommendedQuantity := 2,
             urgency := .high },
           { productId := "p1", name := "Pan", sku := some "PAN-1", quantity := 10,
             dailySalesRate := 2, daysUntilOutOfStock := 5, recommendedQuantity := 46,
             urgency := .medium }] := by
    with_unfolding_all rfl
  have h := ((C20_out_of_stock_days_zero (fun _ => "5") demoDayOf 14 14 demoRestockProducts
    demoRestockSales 14).2 _ hres _ (List.mem_cons_self _ _)).2 (by decide)
  exact ⟨_, _, hres, rfl, by decide, h.1, h.2⟩

/-! ### Restock recommendation: the worked example -/

theorem urgencyTier_iff (daysUntilOutOfStock : ℚ) (thresholdDays : Int) :
    (urgencyTier daysUntilOutOfStock thresholdDays = .high ↔
      daysUntilOutOfStock ≤ (thresholdDays : ℚ) / 3) ∧
    (urgencyTier daysUntilOutOfStock thresholdDays = .medium ↔
      ¬ daysUntilOutOfStock ≤ (thresholdDays : ℚ) / 3 ∧
        daysUntilOutOfStock ≤ (thresholdDays : ℚ) * 2 / 3) ∧
    (urgencyTier daysUntilOutOfStock thresholdDays = .low ↔
      ¬ daysUntilOutOfStock ≤ (thresholdDays : ℚ) / 3 ∧
        ¬ daysUntilOutOfStock ≤ (thresholdDays : ℚ) * 2 / 3) := by
  unfold urgencyTier
  by_cases h1 : daysUntilOutOfStock ≤ (thresholdDays : ℚ) / 3
  · simp [h1]
  · by_cases h2 : daysUntilOutOfStock ≤ (thresholdDays : ℚ) * 2 / 3
    · simp [h1, h2]
    · simp [h1, h2]

theorem restockItem?_example (window : List SaleRecord) (product : Product)
    (hq : product.quantity = 10) (hsold : totalSold window product.id = 28) :
    restockItem? 14 14 window product =
      some { productId := product.id, name := product.name, sku := product.sku,
             quantity := 10, dailySalesRate := 2, daysUntilOutOfStock := 5,
             recommendedQuantity := 46, urgency := .medium } := by
  have hceil : Int.ceil ((2 : ℚ) * ((14 : Int) : ℚ) * 2) = 56 := by
    have : ((2 : ℚ) * ((14 : Int) : ℚ) * 2) = ((56 : Int) : ℚ) := by norm_num
    rw [this, Int.ceil_intCast]
  have hrate : ((28 : Int) : ℚ) / ((14 : Int) : ℚ) = 2 := by norm_num
  have hdays : ((10 : Int) : ℚ) / 2 = 5 := by norm_num
  unfold restockItem?
  simp only [hsold, hq, hrate, hdays]
  have htier : urgencyTier 5 14 = .medium := by
    unfold urgencyTier
    norm_num
  have hif : (if (10 : Int) ≤ 0 then (0 : ℚ) else 5) = 5 := by norm_num
  rw [hif, htier, hceil]
  norm_num

/-- C21 as stated fails on the recommender of the spec: for product p1 with
quantity 10 and 28 units sold in the 14-day window the recommendation has
daysUntilOutOfStock = 5 and, since 5 <= 14 / 3 is false, its urgency by the
tier formula is medium, not high. -/
theorem C21_urgency_counterexample :
    totalSold (windowSales demoDayOf 14 14 demoRestockSales) "p1" = 28 ∧
    (∃ item, restockItem? 14 14 (windowSales demoDayOf 14 14 demoRestockSales)
        (demoProductWithStock "p1" 10) = some item ∧
      item.daysUntilOutOfStock = 5 ∧ item.urgency = .medium ∧ item.urgency ≠ .high) ∧
    ¬ ((5 : ℚ) ≤ ((14 : Int) : ℚ) / 3) := by
  have hsold : totalSold (windowSales demoDayOf 14 14 demoRestockSales) "p1" = 28 := by decide
  refine ⟨hsold, ⟨_, restockItem?_example _ (demoProductWithStock "p1" 10) rfl hsold, rfl, rfl,
    by decide⟩, by norm_num⟩

/-- C21 (amended): for a product with quantity 10 of which 28 units were sold
in the 14-day window (2 units per day) and thresholdDays = 14, the restock
recommendation has daysUntilOutOfStock = 5, urgency medium (5 <= 14 / 3 is
false and 5 <= 14 * 2 / 3 is true) and recommendedQuantity =
max(1, ceil(2 * 28) - 10) = 46, where urgency follows the tier formula: high
if daysUntilOutOfStock <= thresholdDays / 3, medium if <= thresholdDays * 2 / 3,
else low. -/
theorem C21_restock_example (dayOf : Int → Int) (today : Int) (products : List Product)
    (sales : List SaleRecord) (product : Product) (hmem : product ∈ products)
    (hq : product.quantity = 10)
    (hsold : totalSold (windowSales dayOf today 14 sales) product.id = 28) :
    ∃ items item, recommend dayOf today 14 products sales 14 = .ok items ∧ item ∈ items ∧
      item.productId = product.id ∧
      item.dailySalesRate = 2 ∧
      item.daysUntilOutOfStock = 5 ∧
      item.urgency = .medium ∧
      item.urgency = urgencyTier item.daysUntilOutOfStock 14 ∧
      item.recommendedQuantity = 46 ∧
      item.recommendedQuantity = max 1 (Int.ceil ((2 : ℚ) * 28) - 10) ∧
      (∀ (d : ℚ) (t : Int),
        (urgencyTier d t = .high ↔ d ≤ (t : ℚ) / 3) ∧
        (urgencyTier d t = .medium ↔ ¬ d ≤ (t : ℚ) / 3 ∧ d ≤ (t : ℚ) * 2 / 3) ∧
        (urgencyTier d t = .low ↔ ¬ d ≤ (t : ℚ) / 3 ∧ ¬ d ≤ (t : ℚ) * 2 / 3)) := by
  have hitem := restockItem?_example (windowSales dayOf today 14 sales) product hq hsold
  have htier : urgencyTier 5 14 = .medium := by
    unfold urgencyTier
    norm_num
  have hceil : Int.ceil ((2 : ℚ) * 28) = 56 := by
    have : ((2 : ℚ) * 28) = ((56 : Int) : ℚ) := by norm_num
    rw [this, Int.ceil_intCast]
  have hrec : recommend dayOf today 14 products sales 14 =
      .ok ((products.filterMap
        (restockItem? 14 14 (windowSales dayOf today 14 sales))).insertionSort restockBefore) := by
    unfold recommend
    rw [if_neg (by omega)]
  have hin := (List.perm_insertionSort restockBefore _).mem_iff.mpr
    (List.mem_filterMap.mpr ⟨product, hmem, hitem⟩)
  have hqty : (46 : Int) = max 1 (Int.ceil ((2 : ℚ) * 28) - 10) := by
    rw [hceil]
    rfl
  exact ⟨_, _, hrec, hin, rfl, rfl, rfl, rfl, htier.symm, rfl, hqty, urgencyTier_iff⟩

theorem C21_restock_example_witness :
    ∃ items item, recommend demoDayOf 14 14 demoRestockProducts demoRestockSales 14 = .ok items ∧
      item ∈ items ∧ item.productId = "p1" ∧ item.daysUntilOutOfStock = 5 ∧
      item.urgency = .medium ∧ item.recommendedQuantity = 46 :=
  match C21_restock_example demoDayOf 14 demoRestockProducts demoRestockSales
      (demoProductWithStock "p1" 10) (List.mem_cons_self _ _) rfl (by decide) with
  | ⟨items, item, h1, h2, h3, _, h5, h6, _, h8, _⟩ => ⟨items, item, h1, h2, h3, h5, h6, h8⟩

/-! ### SalesPage: addToCart -/

theorem findIndex_eq_none {α : Type} (p : α → Bool) (l : List α)
    (h : ∀ x ∈ l, p x = false) : findIndex p l = none := by
  induction l with
  | nil => rfl
  | cons y ys ih =>
    unfold findIndex
    rw [h y (List.mem_cons_self _ _)]
    simp [ih (fun x hx => h x (List.mem_cons_of_mem _ hx))]

theorem findIndex_first {α : Type} (p : α → Bool) (before : List α) (item : α)
    (after : List α) (hbefore : ∀ x ∈ before, p x = false) (hitem : p item = true) :
    findIndex p (before ++ item :: after) = some before.length := by
  induction before with
  | nil =>
    simp only [List.nil_append, List.length_nil]
    unfold findIndex
    rw [hitem]
    rfl
  | cons y ys ih =>
    simp only [List.cons_append, List.length_cons]
    unfold findIndex
    rw [hbefore y (List.mem_cons_self _ _)]
    simp [ih (fun x hx => hbefore x (List.mem_cons_of_mem _ hx))]

theorem set_first_after {α : Type} (before : List α) (item new : α) (after : List α) :
    (before ++ item :: after).set before.length new = before ++ new :: after := by
  induction before with
  | nil => rfl
  | cons y ys ih => simp [ih]

theorem get?_first_after {α : Type} (before : List α) (item : α) (after : List α) :
    (before ++ item :: after).get? before.length = some item := by
  induction before with
  | nil => rfl
  | cons y ys ih => simpa using ih

theorem first_with_id_or_none (cartItems : List CartItem) (id : String) :
    (∀ item ∈ cartItems, item.productId ≠ id) ∨
    ∃ before item after, cartItems = before ++ item :: after ∧
      (∀ x ∈ before, x.productId ≠ id) ∧ item.productId = id := by
  induction cartItems with
  | nil => exact Or.inl (fun _ h => absurd h (List.not_mem_nil _))
  | cons y ys ih =>
    by_cases hy : y.productId = id
    · exact Or.inr ⟨[], y, ys, rfl, fun _ h => absurd h (List.not_mem_nil _), hy⟩
    · rcases ih with h | ⟨before, item, after, h1, h2, h3⟩
      · left
        intro item hi
        rcases List.mem_cons.mp hi with h' | h'
        · rw [h']; exact hy
        · exact h item h'
      · right
        refine ⟨y :: before, item, after, by rw [h1]; rfl, ?_, h3⟩
        intro x hx
        rcases List.mem_cons.mp hx with h' | h'
        · rw [h']; exact hy
        · exact h2 x h'

/-- C23: addToCart does one of three things. When no cart item has the
product's id it appends one item with quantity 1, the product's price and
maxQuantity = product.quantity, after the unchanged existing items. When the
first item with that id has quantity < product.quantity it raises that
item's quantity by exactly 1 and changes nothing else. When that item's
quantity is >= product.quantity the cart is unchanged. One of the two
situations (no item, a first item with the id) always holds. -/
theorem C23_addToCart (cartItems : List CartItem) (product : Product) :
    ((∀ item ∈ cartItems, item.productId ≠ product.id) →
      addToCart cartItems product =
        cartItems ++ [{ productId := product.id, productName := product.name,
                        price := product.price, quantity := 1,
                        maxQuantity := product.quantity }]) ∧
    (∀ before item after, cartItems = before ++ item :: after →
      (∀ x ∈ before, x.productId ≠ product.id) → item.productId = product.id →
      (item.quantity < product.quantity →
        addToCart cartItems product =
          before ++ { item with quantity := item.quantity + 1 } :: after) ∧
      (item.quantity ≥ product.quantity → addToCart cartItems product = cartItems)) ∧
    ((∀ item ∈ cartItems, item.productId ≠ product.id) ∨
      ∃ before item after, cartItems = before ++ item :: after ∧
        (∀ x ∈ before, x.productId ≠ product.id) ∧ item.productId = product.id) := by
  refine ⟨?_, ?_, first_with_id_or_none cartItems product.id⟩
  · intro hnone
    unfold addToCart
    rw [findIndex_eq_none _ _ (fun x hx => by simpa using hnone x hx)]
  · intro before item after hcart hbefore hitem
    have hfind : findIndex (fun item => item.productId == product.id) cartItems =
        some before.length := by
      rw [hcart]
      exact findIndex_first _ before item after (fun x hx => by simpa using hbefore x hx)
        (by simpa using hitem)
    have hget : cartItems.get? before.length = some item := by
      rw [hcart]
      exact get?_first_after before item after
    unfold addToCart
    rw [hfind]
    simp only [hget]
    constructor
    · intro hlt
      rw [if_neg (by omega), hcart]
      exact set_first_after before item _ after
    · intro hge
      rw [if_pos hge]

theorem C23_addToCart_witness :
    addToCart demoSalesPageState.cartItems demoProduct =
      [{ productId := "p1", productName := "Pan", price := 3 / 2, quantity := 3,
         maxQuantity := 5 }] :=
  ((C23_addToCart demoSalesPageState.cartItems demoProduct).2.1 []
    { productId := "p1", productName := "Pan", price := 3 / 2, quantity := 2, maxQuantity := 5 }
    [] rfl (fun _ h => absurd h (List.not_mem_nil _)) rfl).1 (by decide)

/-! ### ProductList: sort comparator -/

/-- The comparator takes its null-handling branch exactly for the values that
are falsy: a missing value, the empty string and the number 0. -/
theorem fieldValue_truthy_false_iff (value : FieldValue) :
    value.truthy = false ↔ value = .missing ∨ value = .str "" ∨ value = .num 0 := by
  cases value with
  | missing => simp [FieldValue.truthy]
  | str s =>
    have h := strTruthy_iff s
    cases hs : strTruthy s with
    | true => simp [FieldValue.truthy, hs, h.mp hs]
    | false =>
      have : s = "" := by
        by_contra hne
        rw [h.mpr hne] at hs
        exact absurd hs (by simp)
      subst this
      simp [FieldValue.truthy, hs]
  | num q => simp [FieldValue.truthy]

/-- Two products whose numeric key values are both different from 0 are
compared by value: ascending for 'asc', descending otherwise. -/
theorem compareProducts_numbers (ops : TextOps) (sortConfig : SortConfig) (a b : Product)
    (x y : ℚ) (ha : productField sortConfig.key a = .num x)
    (hb : productField sortConfig.key b = .num y) (hx : x ≠ 0) (hy : y ≠ 0) :
    compareProducts ops sortConfig a b =
      if sortConfig.direction = "asc" then x - y else y - x := by
  unfold compareProducts
  simp [ha, hb, FieldValue.truthy, hx, hy]

/-- C24: with the sort key quantity and direction 'asc', a product whose
quantity is the number 0 (a defined value) takes the null-handling branch:
compared with a product of quantity 4 the comparator returns 1, and the
catalog with quantities 4, 0, 9 is displayed in the order 4, 9, 0, which is
not non-decreasing in quantity. -/
theorem C24_zero_quantity_sorted_last :
    productField "quantity" (demoProductWithStock "p2" 0) = .num 0 ∧
    compareProducts asciiTextOps ⟨"quantity", "asc"⟩ (demoProductWithStock "p2" 0)
      (demoProductWithStock "p1" 4) = 1 ∧
    demoCatalog.map (·.quantity) = [4, 0, 9] ∧
    (filterAndSort asciiTextOps demoCatalog "" "Todos" ⟨"quantity", "asc"⟩).map (·.quantity) =
      [4, 9, 0] := by
  refine ⟨by with_unfolding_all rfl, by with_unfolding_all rfl, by decide,
    by with_unfolding_all rfl⟩

/-! ### ProductDetailPage: profit margin -/

theorem calculateProfit_finite (product : ProductForm) (p c : ℚ)
    (hp : parseFloat product.price = .num p) (hc : parseFloat product.cost = .num c)
    (hne : p ≠ 0) : calculateProfit product = .num ((p - c) / p * 100) := by
  unfold calculateProfit
  simp [hp, hc, hne, JSNumber.isNaN, JSNumber.sub, JSNumber.div, JSNumber.mul]

/-- For the price Infinity and a finite cost the formula yields NaN. -/
theorem calculateProfit_infinite_price (product : ProductForm) (c : ℚ)
    (hp : parseFloat product.price = .posInf) (hc : parseFloat product.cost = .num c) :
    calculateProfit product = .nan := by
  unfold calculateProfit
  simp [hp, hc, JSNumber.isNaN, JSNumber.sub, JSNumber.div, JSNumber.mul]

/-- The overflow bound of the parser is 2^1024 - 2^970. -/
theorem doubleOverflowBound_eq : doubleOverflowBound = (2 : ℚ) ^ 1024 - (2 : ℚ) ^ 970 := by
  unfold doubleOverflowBound
  norm_num

/-- The underflow bound of the parser is 2^-1075. -/
theorem doubleUnderflowBound_eq : doubleUnderflowBound = 1 / (2 : ℚ) ^ 1075 := by
  unfold doubleUnderflowBound
  norm_num

/-- With a finite price above 0 and a cost that is a number at least 0 the
margin is at most 100. -/
theorem calculateProfit_le_hundred (product : ProductForm) (p : ℚ)
    (hp : parseFloat product.price = .num p) (hpos : 0 < p)
    (hnonneg : (JSNumber.num 0).le (parseFloat product.cost) = true) :
    (calculateProfit product).le (.num 100) = true := by
  cases hc : parseFloat product.cost with
  | nan => rw [hc] at hnonneg; simp [JSNumber.le] at hnonneg
  | negInf => rw [hc] at hnonneg; simp [JSNumber.le] at hnonneg
  | posInf =>
    unfold calculateProfit
    simp [hp, hc, ne_of_gt hpos, le_of_lt hpos, JSNumber.isNaN, JSNumber.sub, JSNumber.div,
      JSNumber.mul, JSNumber.le]
  | num c =>
    rw [hc] at hnonneg
    simp only [JSNumber.le, decide_eq_true_eq] at hnonneg
    rw [calculateProfit_finite product p c hp hc (ne_of_gt hpos)]
    simp only [JSNumber.le, decide_eq_true_eq]
    have hdiv : (p - c) / p ≤ 1 := by
      rw [div_le_one hpos]
      linarith
    linarith

set_option maxRecDepth 100000 in
/-- C25, counterexample: the price 1e400 is a value of the number input and
parses to Infinity, which is above 0, and the cost 1 is at least 0, yet the
margin is NaN, which is not at most 100. -/
theorem C25_profit_bound_counterexample :
    isNumberInputValue "1e400" = true ∧ isNumberInputValue "1" = true ∧
    parseFloat (demoProfitForm "1e400" "1").price = .posInf ∧
    parseFloat (demoProfitForm "1e400" "1").cost = .num 1 ∧
    (JSNumber.num 0).lt (parseFloat (demoProfitForm "1e400" "1").price) = true ∧
    (JSNumber.num 0).le (parseFloat (demoProfitForm "1e400" "1").cost) = true ∧
    calculateProfit (demoProfitForm "1e400" "1") = .nan ∧
    (calculateProfit (demoProfitForm "1e400" "1")).le (.num 100) = false := by
  have hp : parseFloat (demoProfitForm "1e400" "1").price = .posInf := by
    with_unfolding_all rfl
  have hc : parseFloat (demoProfitForm "1e400" "1").cost = .num 1 := by
    with_unfolding_all rfl
  have hnan := calculateProfit_infinite_price (demoProfitForm "1e400" "1") 1 hp hc
  refine ⟨by decide, by decide, hp, hc, ?_, ?_, hnan, ?_⟩
  · rw [hp]
    rfl
  · rw [hc]
    simp [JSNumber.le]
  · rw [hnan]
    rfl

/-- C25: calculateProfit returns 0 when the price or the cost does not parse
to a number or the price is 0; otherwise it returns (price - cost) / price *
100 and the divisor is not 0; for finite price p and cost c that is the
number (p - c) / p * 100; and for a finite price above 0 and a cost that is a
number at least 0 the result is at most 100. -/
theorem C25_calculateProfit (product : ProductForm) :
    ((parseFloat product.price).isNaN = true ∨ (parseFloat product.cost).isNaN = true ∨
        parseFloat product.price = .num 0 → calculateProfit product = .num 0) ∧
    (¬ ((parseFloat product.price).isNaN = true ∨ (parseFloat product.cost).isNaN = true ∨
        parseFloat product.price = .num 0) →
      calculateProfit product =
        (((parseFloat product.price).sub (parseFloat product.cost)).div
          (parseFloat product.price)).mul (.num 100) ∧
      parseFloat product.price ≠ .num 0) ∧
    (∀ p c : ℚ, parseFloat product.price = .num p → parseFloat product.cost = .num c →
      p ≠ 0 → calculateProfit product = .num ((p - c) / p * 100)) ∧
    (∀ p : ℚ, parseFloat product.price = .num p → 0 < p →
      (JSNumber.num 0).le (parseFloat product.cost) = true →
      (calculateProfit product).le (.num 100) = true) := by
  refine ⟨?_, ?_, fun p c hp hc hne => calculateProfit_finite product p c hp hc hne,
    fun p hp hpos hnonneg => calculateProfit_le_hundred product p hp hpos hnonneg⟩
  · intro h
    unfold calculateProfit
    dsimp only
    rw [if_pos]
    rcases h with h | h | h
    · simp [h]
    · simp [h]
    · simp [h]
  · intro h
    refine ⟨?_, fun h0 => h (Or.inr (Or.inr h0))⟩
    unfold calculateProfit
    dsimp only
    rw [if_neg]
    intro hcond
    apply h
    simp only [Bool.or_eq_true, decide_eq_true_eq] at hcond
    rcases hcond with (h1 | h2) | h3
    · exact Or.inl h1
    · exact Or.inr (Or.inl h2)
    · exact Or.inr (Or.inr h3)

theorem C25_calculateProfit_witness :
    isNumberInputValue "2.50" = true ∧ isNumberInputValue "1.2" = true ∧
    parseFloat (demoProfitForm "2.50" "1.2").price = .num (5 / 2) ∧
    parseFloat (demoProfitForm "2.50" "1.2").cost = .num (6 / 5) ∧
    calculateProfit (demoProfitForm "2.50" "1.2") = .num 52 ∧
    (calculateProfit (demoProfitForm "2.50" "1.2")).le (.num 100) = true := by
  have hp : parseFloat (demoProfitForm "2.50" "1.2").price = .num (5 / 2) := by
    with_unfolding_all rfl
  have hc : parseFloat (demoProfitForm "2.50" "1.2").cost = .num (6 / 5) := by
    with_unfolding_all rfl
  have h := C25_calculateProfit (demoProfitForm "2.50" "1.2")
  refine ⟨by decide, by decide, hp, hc,
    (h.2.2.1 (5 / 2) (6 / 5) hp hc (by norm_num)).trans (by norm_num), ?_⟩
  exact h.2.2.2 (5 / 2) hp (by norm_num) (by rw [hc]; simp [JSNumber.le]; norm_num)

/-! ### Seasonal patterns -/

theorem string_length_pos_iff (s : String) : s.length > 0 ↔ s ≠ "" := by
  cases s with
  | mk data =>
    cases data with
    | nil => simp [String.length]
    | cons c cs =>
      simp only [String.length, List.length_cons, gt_iff_lt, Nat.zero_lt_succ, ne_eq, true_iff]
      intro h
      have := congrArg String.data h
      simp at this

theorem insightText_names (property : String) (items : List String) :
    insightText property (.names items) =
      .ok (if items.length > 0 then ", ".intercalate items else "Sin datos suficientes") := by
  simp only [insightText]
  by_cases h : items.length > 0
  · rw [if_pos h, if_pos h]
  · rw [if_neg h, if_neg h]

theorem insightText_sentinel (property : String) (text : String) (h : text ≠ "") :
    insightText property (.sentinel text) =
      .error (.typeError ("recommendations." ++ property ++ ".join is not a function")) := by
  simp only [insightText]
  rw [if_pos ((string_length_pos_iff text).mpr h)]

/-- The seasonal tab renders every result whose three list fields are arrays:
an empty array is shown as 'Sin datos suficientes', an empty staffing
recommendation as 'Sin recomendaciones disponibles'. -/
theorem renderSeasonalTab_names (patterns : SeasonalPatterns) (days hours months : List String)
    (hd : patterns.recommendations.peakDays = .names days)
    (hh : patterns.recommendations.peakHours = .names hours)
    (hm : patterns.recommendations.highSeasonMonths = .names months) :
    renderSeasonalTab (some patterns) =
      .ok (.tab
        { chartData := getSeasonalChartData (some patterns)
          peakDays :=
            if days.length > 0 then ", ".intercalate days else "Sin datos suficientes"
          peakHours :=
            if hours.length > 0 then ", ".intercalate hours else "Sin datos suficientes"
          staffing :=
            if patterns.recommendations.staffingRecommendation ≠ "" then
              patterns.recommendations.staffingRecommendation
            else "Sin recomendaciones disponibles"
          highSeason :=
            if months.length > 0 then ", ".intercalate months
            else "Sin datos suficientes" }) := by
  unfold renderSeasonalTab
  simp only [hd, hh, hm, insightText_names]
  by_cases hs : patterns.recommendations.staffingRecommendation = ""
  · have htruthy : strTruthy "" = false := rfl
    simp [hs, htruthy]
  · simp [(strTruthy_iff _).mpr hs, hs]

/-- C22: analyzeSeasonality on an empty sales list returns empty bucket maps
and reports insufficient data in every recommendation field, the three list
fields as the empty collection and the staffing recommendation as the
sentinel string 'insufficient data'; the seasonal tab renders that result
without throwing, with an empty chart, 'Sin datos suficientes' in the three
list cards and the sentinel in the staffing card; and the tab renders the
result of the analysis of every sales list without throwing. -/
theorem C22_seasonal_empty (cal : SeasonCalendar) :
    analyzeSeasonality cal [] =
      { byDayOfWeek := [], byHour := [], byMonth := []
        recommendations :=
          { peakDays := .names []
            peakHours := .names []
            highSeasonMonths := .names []
            staffingRecommendation := "insufficient data" } } ∧
    renderSeasonalTab (some (analyzeSeasonality cal [])) =
      .ok (.tab { chartData := [], peakDays := "Sin datos suficientes",
                  peakHours := "Sin datos suficientes",
                  staffing := "insufficient data",
                  highSeason := "Sin datos suficientes" }) ∧
    (∀ sales : List SaleRecord, ∃ view : SeasonalTabView,
      renderSeasonalTab (some (analyzeSeasonality cal sales)) = .ok (.tab view)) := by
  have hempty : analyzeSeasonality cal [] =
      { byDayOfWeek := [], byHour := [], byMonth := []
        recommendations :=
          { peakDays := .names []
            peakHours := .names []
            highSeasonMonths := .names []
            staffingRecommendation := "insufficient data" } } := rfl
  refine ⟨hempty, ?_, ?_⟩
  · rw [hempty]
    with_unfolding_all rfl
  · intro sales
    exact ⟨_, renderSeasonalTab_names (analyzeSeasonality cal sales) _ _ _ rfl rfl rfl⟩

theorem C22_seasonal_empty_witness :
    analyzeSeasonality demoSeasonCalendar [] =
      { byDayOfWeek := [], byHour := [], byMonth := []
        recommendations :=
          { peakDays := .names []
            peakHours := .names []
            highSeasonMonths := .names []
            staffingRecommendation := "insufficient data" } } ∧
    renderSeasonalTab (some (analyzeSeasonality demoSeasonCalendar [])) =
      .ok (.tab { chartData := [], peakDays := "Sin datos suficientes",
                  peakHours := "Sin datos suficientes",
                  staffing := "insufficient data",
                  highSeason := "Sin datos suficientes" }) :=
  ⟨(C22_seasonal_empty demoSeasonCalendar).1, (C22_seasonal_empty demoSeasonCalendar).2.1⟩

end InventoryControl
